import Mathlib

/-!
Verification of the libzkp proof subsystem specification.

The development shallowly embeds the Rust sources: byte vectors become
`List Nat` (each element a byte value), machine integers become `Nat` with
explicit bounds and modular truncation where the code casts, fallible code
returns `Except`.  External cryptographic libraries (bulletproofs,
curve25519-dalek, arkworks Groth16, winterfell STARK, sha2) are modelled by
an abstract `CryptoModel` structure whose operational fields are opaque
functions and whose `Prop` fields state the algebraic contracts the
libraries provide (commitment homomorphism, range-proof completeness,
serialisation lengths).  A fully computable instance `TrivialModel`
witnesses the structure and lets concrete scenarios be evaluated by the
kernel.
-/

namespace Libzkp

/-- Byte strings are lists of byte values. -/
abbrev Bytes := List Nat

/-- Little-endian encoding of `n` into `w` bytes, mirroring
`u32::to_le_bytes` / `u64::to_le_bytes` (truncates modulo `2 ^ (8 * w)`). -/
def toLE : Nat → Nat → Bytes
  | 0, _ => []
  | w + 1, n => n % 256 :: toLE w (n / 256)

/-- Little-endian decoding, mirroring `u32::from_le_bytes` and
`u64::from_le_bytes` on code-produced byte slices. -/
def fromLE (l : Bytes) : Nat := l.foldr (fun b acc => b + 256 * acc) 0

theorem toLE_length (w n : Nat) : (toLE w n).length = w := by
  induction w generalizing n with
  | zero => rfl
  | succ w ih => simp [toLE, ih]

theorem fromLE_toLE (w n : Nat) (h : n < 2 ^ (8 * w)) : fromLE (toLE w n) = n := by
  induction w generalizing n with
  | zero =>
    simp only [Nat.mul_zero, pow_zero, Nat.lt_one_iff] at h
    simp [toLE, fromLE, h]
  | succ w ih =>
    have hdiv : n / 256 < 2 ^ (8 * w) := by
      have h8 : (8 : Nat) * (w + 1) = 8 * w + 8 := by ring
      rw [h8, pow_add] at h
      have : n < 2 ^ (8 * w) * 256 := by norm_num at h ⊢; omega
      omega
    have := ih (n / 256) hdiv
    simp only [toLE, fromLE, List.foldr_cons] at *
    rw [this]
    omega

theorem fromLE_nil : fromLE [] = 0 := rfl

/-- Take an exact-length prefix across an append. -/
theorem take_app_len (a b : Bytes) (n : Nat) (h : a.length = n) :
    (a ++ b).take n = a := by
  subst h; exact List.take_left a b

/-- Drop an exact-length prefix across an append. -/
theorem drop_app_len (a b : Bytes) (n : Nat) (h : a.length = n) :
    (a ++ b).drop n = b := by
  subst h; exact List.drop_left a b

/-! ## Error model (src/utils/error_handling.rs) -/

/-- Typed error kinds of `ZkpError`, each carrying its message string. -/
inductive ZkpError where
  | invalidInput (msg : String)
  | proofGenerationFailed (msg : String)
  | verificationFailed (msg : String)
  | invalidProofFormat (msg : String)
  | backendError (msg : String)
  | serializationError (msg : String)
  | validationError (msg : String)
  | integerOverflow (msg : String)
  | cryptoError (msg : String)
  | configError (msg : String)
  deriving DecidableEq, Repr

/-- Python exception classes that errors are mapped to at the binding
boundary (src/utils/error_handling.rs, `impl From<ZkpError> for PyErr`). -/
inductive PyErrKind where
  | valueError
  | typeError
  | overflowError
  | runtimeError
  deriving DecidableEq, Repr

/-- A raised Python exception: class plus message. -/
structure PyErr where
  kind : PyErrKind
  msg : String
  deriving DecidableEq, Repr

/-- The `From<ZkpError> for PyErr` mapping. -/
def pyErrOfZkp : ZkpError → PyErr
  | .invalidInput m => ⟨.valueError, m⟩
  | .validationError m => ⟨.valueError, m⟩
  | .integerOverflow m => ⟨.overflowError, m⟩
  | .invalidProofFormat m => ⟨.typeError, m⟩
  | .configError m => ⟨.typeError, m⟩
  | .proofGenerationFailed m => ⟨.runtimeError, m⟩
  | .verificationFailed m => ⟨.runtimeError, m⟩
  | .backendError m => ⟨.runtimeError, m⟩
  | .serializationError m => ⟨.runtimeError, m⟩
  | .cryptoError m => ⟨.runtimeError, m⟩

/-- Map a `Result<T, ZkpError>` into a `PyResult<T>`. -/
def liftZkp {α : Type} : Except ZkpError α → Except PyErr α
  | .ok a => .ok a
  | .error e => .error (pyErrOfZkp e)

theorem liftZkp_ok {α : Type} (a : α) : liftZkp (.ok a) = .ok a := rfl

/-! ## Size limits (src/utils/limits.rs) -/

def MAX_PROOF_TOTAL_BYTES : Nat := 1 * 1024 * 1024

def MAX_PROOF_PAYLOAD_BYTES : Nat := 900 * 1024

def MAX_COMMITMENT_BYTES : Nat := 256

/-! ## Proof envelope (src/proof/mod.rs) -/

def PROOF_VERSION : Nat := 1

/-- The proof envelope carried on the wire. -/
structure Proof where
  version : Nat
  scheme : Nat
  proof : Bytes
  commitment : Bytes
  deriving DecidableEq, Repr

/-- `Proof::new` pins the current version. -/
def Proof.new (scheme : Nat) (proof commitment : Bytes) : Proof :=
  ⟨PROOF_VERSION, scheme, proof, commitment⟩

/-- `Proof::to_bytes`: refuses payloads whose length does not fit `u32`,
otherwise emits version, scheme, two u32 LE length fields, then the two
payloads. -/
def Proof.to_bytes (p : Proof) : Bytes :=
  if p.proof.length > 4294967295 ∨ p.commitment.length > 4294967295 then []
  else
    p.version :: p.scheme :: (toLE 4 p.proof.length ++ toLE 4 p.commitment.length
      ++ p.proof ++ p.commitment)

/-- `Proof::from_bytes`: bounds-checked decoding.  The `checked_add` on
`usize` in the source cannot overflow on decodable inputs and is modelled by
plain addition. -/
def Proof.from_bytes (data : Bytes) : Option Proof :=
  if data.length > MAX_PROOF_TOTAL_BYTES then none
  else if data.length < 10 then none
  else
    let version := data.headD 0
    let scheme := (data.drop 1).headD 0
    let proof_len := fromLE ((data.drop 2).take 4)
    let comm_len := fromLE ((data.drop 6).take 4)
    if proof_len > MAX_PROOF_PAYLOAD_BYTES ∨ comm_len > MAX_COMMITMENT_BYTES then none
    else
      let total := 10 + proof_len + comm_len
      if data.length ≠ total then none
      else
        some ⟨version, scheme, (data.drop 10).take proof_len, data.drop (10 + proof_len)⟩

/-- Decoding recovers each field of a size-respecting envelope. -/
theorem from_bytes_to_bytes (p : Proof)
    (hp : p.proof.length ≤ MAX_PROOF_PAYLOAD_BYTES)
    (hc : p.commitment.length ≤ MAX_COMMITMENT_BYTES) :
    Proof.from_bytes p.to_bytes = some p := by
  obtain ⟨v, s, pf, cm⟩ := p
  simp only [MAX_PROOF_PAYLOAD_BYTES] at hp
  simp only [MAX_COMMITMENT_BYTES] at hc
  simp only [Proof.to_bytes] at *
  rw [if_neg (by omega)]
  simp only [Proof.from_bytes, List.length_cons, List.length_append, toLE_length]
  rw [if_neg (by simp only [MAX_PROOF_TOTAL_BYTES]; omega), if_neg (by omega)]
  have hdrop2 : (v :: s :: (toLE 4 pf.length ++ toLE 4 cm.length ++ pf ++ cm)).drop 2
      = toLE 4 pf.length ++ (toLE 4 cm.length ++ (pf ++ cm)) := by
    simp [List.append_assoc]
  have hplen : fromLE ((v :: s :: (toLE 4 pf.length ++ toLE 4 cm.length ++ pf ++ cm)).drop 2
      |>.take 4) = pf.length := by
    rw [hdrop2, take_app_len _ _ 4 (toLE_length 4 _), fromLE_toLE]
    norm_num; omega
  have hdrop6 : (v :: s :: (toLE 4 pf.length ++ toLE 4 cm.length ++ pf ++ cm)).drop 6
      = toLE 4 cm.length ++ (pf ++ cm) := by
    have : (6 : Nat) = 2 + 4 := rfl
    rw [this, ← List.drop_drop, hdrop2, drop_app_len _ _ 4 (toLE_length 4 _)]
  have hclen : fromLE ((v :: s :: (toLE 4 pf.length ++ toLE 4 cm.length ++ pf ++ cm)).drop 6
      |>.take 4) = cm.length := by
    rw [hdrop6, take_app_len _ _ 4 (toLE_length 4 _), fromLE_toLE]
    norm_num; omega
  rw [if_neg (by rw [hplen, hclen]; simp only [MAX_PROOF_PAYLOAD_BYTES,
    MAX_COMMITMENT_BYTES]; omega)]
  rw [if_neg (by rw [hplen, hclen]; omega)]
  have hdrop10 : (v :: s :: (toLE 4 pf.length ++ toLE 4 cm.length ++ pf ++ cm)).drop 10
      = pf ++ cm := by
    have : (10 : Nat) = 6 + 4 := rfl
    rw [this, ← List.drop_drop, hdrop6, drop_app_len _ _ 4 (toLE_length 4 _)]
  have hdropAll : (v :: s :: (toLE 4 pf.length ++ toLE 4 cm.length ++ pf ++ cm)).drop
      (10 + fromLE ((v :: s :: (toLE 4 pf.length ++ toLE 4 cm.length ++ pf ++ cm)).drop 2
        |>.take 4)) = cm := by
    rw [hplen, ← List.drop_drop, hdrop10, drop_app_len _ _ pf.length rfl]
  rw [hdropAll, hplen, hdrop10, take_app_len _ _ pf.length rfl]
  simp

/-- Truncating the final byte of a size-respecting envelope breaks the
declared-length check (or the minimum-size check) and decoding fails. -/
theorem from_bytes_truncated (p : Proof)
    (hp : p.proof.length ≤ MAX_PROOF_PAYLOAD_BYTES)
    (hc : p.commitment.length ≤ MAX_COMMITMENT_BYTES) :
    Proof.from_bytes p.to_bytes.dropLast = none := by
  obtain ⟨v, s, pf, cm⟩ := p
  simp only [MAX_PROOF_PAYLOAD_BYTES] at hp
  simp only [MAX_COMMITMENT_BYTES] at hc
  simp only [Proof.to_bytes]
  rw [if_neg (by omega)]
  set body : Bytes := v :: s :: (toLE 4 pf.length ++ toLE 4 cm.length ++ pf ++ cm) with hbody
  have hblen : body.length = 10 + pf.length + cm.length := by
    simp [hbody, toLE_length]; omega
  have hlen : body.dropLast.length = 9 + pf.length + cm.length := by
    rw [List.length_dropLast, hblen]; omega
  by_cases hzero : pf.length + cm.length = 0
  · simp only [Proof.from_bytes]
    rw [if_neg (by rw [hlen]; simp only [MAX_PROOF_TOTAL_BYTES]; omega),
      if_pos (by rw [hlen]; omega)]
  · have hdl : body.dropLast = body.take (9 + pf.length + cm.length) := by
      rw [List.dropLast_eq_take, hblen]
      congr 1
      omega
    simp only [Proof.from_bytes]
    rw [if_neg (by rw [hlen]; simp only [MAX_PROOF_TOTAL_BYTES]; omega),
      if_neg (by rw [hlen]; omega)]
    have htk : ∀ k : Nat, k + 4 ≤ 9 + pf.length + cm.length →
        ((body.take (9 + pf.length + cm.length)).drop k).take 4 = (body.drop k).take 4 := by
      intro k hk
      rw [List.drop_take, List.take_take]
      congr 1
      omega
    have bdrop2 : body.drop 2 = toLE 4 pf.length ++ (toLE 4 cm.length ++ (pf ++ cm)) := by
      simp [hbody, List.append_assoc]
    have bdrop6 : body.drop 6 = toLE 4 cm.length ++ (pf ++ cm) := by
      have h6 : (6 : Nat) = 2 + 4 := rfl
      rw [h6, ← List.drop_drop, bdrop2, drop_app_len _ _ 4 (toLE_length 4 _)]
    have hplen : fromLE ((body.dropLast.drop 2).take 4) = pf.length := by
      rw [hdl, htk 2 (by omega), bdrop2, take_app_len _ _ 4 (toLE_length 4 _), fromLE_toLE]
      norm_num; omega
    have hclen : fromLE ((body.dropLast.drop 6).take 4) = cm.length := by
      rw [hdl, htk 6 (by omega), bdrop6, take_app_len _ _ 4 (toLE_length 4 _), fromLE_toLE]
      norm_num; omega
    rw [if_neg (by rw [hplen, hclen]; simp only [MAX_PROOF_PAYLOAD_BYTES,
      MAX_COMMITMENT_BYTES]; omega)]
    rw [if_pos (by rw [hplen, hclen, hlen]; omega)]

/-! ## The in-band commitment marker (b"COMMIT:") -/

/-- ASCII bytes of the marker string `"COMMIT:"`. -/
def marker : Bytes := [67, 79, 77, 77, 73, 84, 58]

/-- Position search for the marker, mirroring
`proof_data.windows(7).position(|w| w == b"COMMIT:")`. -/
def findMarkerAux : Bytes → Nat → Option Nat
  | [], _ => none
  | b :: t, i =>
    if marker.isPrefixOf (b :: t) then some i else findMarkerAux t (i + 1)

def findMarker (l : Bytes) : Option Nat := findMarkerAux l 0

/-- Position offsets commute with the search. -/
theorem findMarkerAux_shift (l : Bytes) (i : Nat) :
    findMarkerAux l i = (findMarkerAux l 0).map (· + i) := by
  induction l generalizing i with
  | nil => rfl
  | cons b t ih =>
    by_cases h : marker.isPrefixOf (b :: t)
    · simp [findMarkerAux, h]
    · simp only [findMarkerAux, h, if_false]
      rw [ih (i + 1), ih 1]
      cases findMarkerAux t 0 with
      | none => simp
      | some j => simp; omega

/-- A payload is marker-clean when, followed by the marker, the first
marker occurrence sits exactly at the payload boundary.  Real bulletproofs
payloads satisfy this except with negligible probability (a spurious
`"COMMIT:"` inside random proof bytes); the hypothesis makes the caveat
explicit. -/
def markerClean (payload : Bytes) : Prop :=
    findMarker (payload ++ marker) = some payload.length

instance (payload : Bytes) : Decidable (markerClean payload) := by
  unfold markerClean; infer_instance

/-- Taking a prefix that ends inside the left operand of an append. -/
theorem take_append_left (a b : Bytes) (n : Nat) (h : n ≤ a.length) :
    (a ++ b).take n = a.take n := by
  rw [List.take_append_eq_append_take, Nat.sub_eq_zero_of_le h, List.take_zero,
    List.append_nil]

theorem isPrefixOf_take_eq (pat l1 l2 : Bytes)
    (h : l1.take pat.length = l2.take pat.length) :
    pat.isPrefixOf l1 = pat.isPrefixOf l2 := by
  have hiff : pat <+: l1 ↔ pat <+: l2 := by
    rw [List.prefix_iff_eq_take, List.prefix_iff_eq_take, h]
  by_cases h1 : pat <+: l1
  · rw [List.isPrefixOf_iff_prefix.mpr h1, List.isPrefixOf_iff_prefix.mpr (hiff.mp h1)]
  · rw [Bool.eq_iff_iff, List.isPrefixOf_iff_prefix, List.isPrefixOf_iff_prefix]
    exact iff_of_false h1 (fun hc => h1 (hiff.mpr hc))

theorem findMarker_cons (b : Nat) (X : Bytes) :
    findMarker (b :: X) =
      if marker.isPrefixOf (b :: X) then some 0 else (findMarker X).map (· + 1) := by
  unfold findMarker
  rw [findMarkerAux]
  rw [findMarkerAux_shift X 1]

/-- Appending extra bytes after the marker does not change where the first
occurrence is found. -/
theorem findMarker_clean_append (payload rest : Bytes) (h : markerClean payload) :
    findMarker (payload ++ marker ++ rest) = some payload.length := by
  induction payload with
  | nil =>
    simp only [List.nil_append, List.length_nil]
    have hm : marker ++ rest = 67 :: ([79, 77, 77, 73, 84, 58] ++ rest) := rfl
    rw [hm, findMarker_cons, if_pos]
    rw [← hm]
    exact List.isPrefixOf_iff_prefix.mpr (List.prefix_append marker rest)
  | cons b t ih =>
    unfold markerClean at h
    have hc : (b :: t) ++ marker = b :: (t ++ marker) := rfl
    have hg : (b :: t) ++ marker ++ rest = b :: (t ++ marker ++ rest) := rfl
    rw [hc, findMarker_cons] at h
    rw [hg, findMarker_cons]
    have hpre : marker.isPrefixOf (b :: (t ++ marker ++ rest))
        = marker.isPrefixOf (b :: (t ++ marker)) := by
      apply isPrefixOf_take_eq
      have hm7 : marker.length = 7 := rfl
      rw [hm7, List.take_succ_cons, List.take_succ_cons,
        take_append_left (t ++ marker) rest 6 (by simp [marker])]
    rw [hpre]
    by_cases hp : marker.isPrefixOf (b :: (t ++ marker)) = true
    · rw [if_pos hp] at h
      simp at h
    · rw [if_neg hp] at h
      rw [if_neg hp]
      cases hft : findMarker (t ++ marker) with
      | none => rw [hft] at h; simp at h
      | some j =>
        rw [hft] at h
        simp at h
        have hj : j = t.length := by omega
        have := ih (by unfold markerClean; rw [hft, hj])
        rw [this]
        simp

/-- The bytes after the first marker in a clean framing. -/
theorem drop_after_marker (payload rest : Bytes) :
    (payload ++ marker ++ rest).drop (payload.length + 7) = rest := by
  rw [List.append_assoc, ← List.drop_drop, drop_app_len _ _ payload.length rfl,
    drop_app_len _ _ 7 (by rfl)]

theorem take_at_marker (payload rest : Bytes) :
    (payload ++ marker ++ rest).take payload.length = payload := by
  rw [List.append_assoc, take_app_len _ _ payload.length rfl]

/-! ## Abstract model of the external cryptographic libraries

The repository links against bulletproofs + curve25519-dalek (Pedersen
commitments over Ristretto, 64-bit range proofs), sha2, arkworks Groth16
over BN254, and winterfell.  Those libraries are outside the sources being
verified, so their operations appear here as opaque fields of one structure
whose `Prop` fields record the contracts the repository relies on:
commitment homomorphism for the linked-blinding checks, completeness and
output shape of range proofs, Groth16 and STARK completeness, and the
32-byte output of SHA-256 and of compressed Ristretto points.  `Scalar`
stands for the Ristretto scalar field and `Point` for the group. -/
structure CryptoModel where
  Point : Type
  Scalar : Type
  /-- `Scalar::from(u64)`. -/
  sFromNat : Nat → Scalar
  /-- Scalar subtraction. -/
  ssub : Scalar → Scalar → Scalar
  /-- Scalar negation. -/
  sneg : Scalar → Scalar
  /-- Point subtraction. -/
  psub : Point → Point → Point
  /-- Point addition. -/
  padd : Point → Point → Point
  /-- Scalar multiplication of a point. -/
  psmul : Scalar → Point → Point
  /-- The Pedersen value basepoint `pc_gens.B`. -/
  B : Point
  /-- `pc_gens.commit(value, blinding)`. -/
  commitS : Scalar → Scalar → Point
  /-- `CompressedRistretto` encoding of a point. -/
  compress : Point → Bytes
  /-- `CompressedRistretto::decompress`, `none` when the bytes are not a
  valid encoding. -/
  decompress : Bytes → Option Point
  /-- Scalar addition. -/
  sadd : Scalar → Scalar → Scalar
  /-- Scalar multiplication. -/
  smul : Scalar → Scalar → Scalar
  /-- Decidable scalar equality (`PartialEq` on `Scalar`). -/
  sEq : Scalar → Scalar → Bool
  /-- Decidable point equality (`PartialEq` on `RistrettoPoint`). -/
  pEq : Point → Point → Bool
  /-- `Scalar::from_canonical_bytes`. -/
  scalarFromCanonical : Bytes → Option Scalar
  /-- `Scalar::from_bytes_mod_order`. -/
  scalarFromBytesModOrder : Bytes → Scalar
  /-- The membership Fiat-Shamir transcript challenge over
  (value commitment bytes, index commitment bytes, set elements). -/
  membershipChallengeBytes : Bytes → Bytes → List Nat → Bytes
  /-- `RangeProof::prove_single` with a fresh transcript under the given
  label: returns serialized proof bytes and the compressed commitment. -/
  rpProve : String → Nat → Scalar → Option (Bytes × Bytes)
  /-- `RangeProof::from_bytes(..).is_ok()`. -/
  rpParses : Bytes → Bool
  /-- `RangeProof::verify_single` under the given transcript label against
  a compressed commitment, composed with deserialization. -/
  rpVerify : String → Bytes → Bytes → Bool
  /-- `Sha256` digest. -/
  sha : Bytes → Bytes
  /-- Groth16 prove for the equality circuit (witnesses `a`, `b`, public
  commitment bytes); `none` models setup, proving or serialization
  failure. -/
  grothProveEq : Nat → Nat → Bytes → Option Bytes
  /-- Groth16 verify for the equality circuit, composed with proof
  deserialization and verifying-key processing. -/
  grothVerifyEq : Bytes → Bytes → Bool
  /-- Groth16 prove for the membership circuit; the fixed-size padding of
  the set to `MAX_SET_SIZE` happens inside, determined by the given set. -/
  grothProveMem : Nat → List Nat → Bytes → Option Bytes
  /-- Groth16 verify for the membership circuit against public inputs
  rebuilt from the commitment and the padded set. -/
  grothVerifyMem : Bytes → List Nat → Bytes → Bool
  /-- Winterfell prover for the improvement AIR on `(old, new)`. -/
  starkProveRaw : Nat → Nat → Option Bytes
  /-- Winterfell verifier, composed with proof deserialization. -/
  starkVerifyRaw : Bytes → Nat → Nat → Bool
  /-- SHA-256 digests are 32 bytes. -/
  sha_len : ∀ l, (sha l).length = 32
  /-- Compressed Ristretto points are 32 bytes. -/
  compress_len : ∀ p, (compress p).length = 32
  /-- Decompression inverts compression. -/
  decompress_compress : ∀ p, decompress (compress p) = some p
  /-- `commit(a, r) - m·B = commit(a - m, r)` for `m ≤ a`. -/
  commit_sub_base : ∀ (a m : Nat) (r : Scalar), m ≤ a →
    psub (commitS (sFromNat a) r) (psmul (sFromNat m) B)
      = commitS (sFromNat (a - m)) r
  /-- `m·B - commit(a, r) = commit(m - a, -r)` for `a ≤ m`. -/
  base_sub_commit : ∀ (a m : Nat) (r : Scalar), a ≤ m →
    psub (psmul (sFromNat m) B) (commitS (sFromNat a) r)
      = commitS (sFromNat (m - a)) (sneg r)
  /-- `commit(a, r) - commit(b, s) = commit(a - b, r - s)` for `b ≤ a`. -/
  commit_sub_commit : ∀ (a b : Nat) (r s : Scalar), b ≤ a →
    psub (commitS (sFromNat a) r) (commitS (sFromNat b) s)
      = commitS (sFromNat (a - b)) (ssub r s)
  /-- 64-bit range proving succeeds on any `u64` value. -/
  rp_some : ∀ lbl (v : Nat) r, v < 2 ^ 64 → (rpProve lbl v r).isSome = true
  /-- A produced range proof parses, verifies under the same label against
  its own commitment, the commitment is the compressed Pedersen commitment
  of the value under the supplied blinding, and the serialized proof is
  small. -/
  rp_spec : ∀ lbl v r pf cm, rpProve lbl v r = some (pf, cm) →
    cm = compress (commitS (sFromNat v) r) ∧ rpParses pf = true ∧
    rpVerify lbl pf cm = true ∧ pf.length ≤ 1000
  /-- Equality-circuit proving succeeds on a satisfiable witness. -/
  gEq_some : ∀ (a : Nat), a < 2 ^ 64 →
    (grothProveEq a a (sha (toLE 8 a))).isSome = true
  /-- A produced equality proof is nonempty, small, and verifies against
  the public input it was produced for. -/
  gEq_spec : ∀ a b h pf, grothProveEq a b h = some pf →
    pf ≠ [] ∧ pf.length ≤ 1000 ∧ grothVerifyEq pf h = true
  /-- Membership-circuit proving succeeds on a satisfiable witness. -/
  gMem_some : ∀ (v : Nat) (set : List Nat) cm, v ∈ set → set.length ≤ 64 →
    (grothProveMem v set cm).isSome = true
  /-- A produced membership proof is nonempty, small, and verifies against
  the same set and commitment. -/
  gMem_spec : ∀ v set cm pf, grothProveMem v set cm = some pf →
    pf ≠ [] ∧ pf.length ≤ 900000 ∧ grothVerifyMem pf set cm = true
  /-- STARK proving succeeds on a strict improvement of `u64` values. -/
  stark_some : ∀ (old new : Nat), old < new → new < 2 ^ 64 →
    (starkProveRaw old new).isSome = true
  /-- A produced STARK proof is nonempty, within the payload limit, and
  verifies against its public inputs. -/
  stark_spec : ∀ old new pf, starkProveRaw old new = some pf →
    pf ≠ [] ∧ pf.length ≤ MAX_PROOF_PAYLOAD_BYTES ∧ starkVerifyRaw pf old new = true

/-- `pc_gens.commit(Scalar::from(v), r)` for a `u64` value. -/
def CryptoModel.commitN (M : CryptoModel) (v : Nat) (r : M.Scalar) : M.Point :=
  M.commitS (M.sFromNat v) r

/-! ## Validation layer (src/utils/validation.rs) -/

/-- `validate_range_params`. -/
def validate_range_params (value min max : Nat) : Except ZkpError Unit :=
  if min > max then .error (.invalidInput "min cannot be greater than max")
  else if value < min ∨ value > max then
    .error (.invalidInput "value is not in range")
  else .ok ()

/-- `validate_equality_params`. -/
def validate_equality_params (val1 val2 : Nat) : Except ZkpError Unit :=
  if val1 ≠ val2 then .error (.invalidInput "values are not equal")
  else .ok ()

/-- `u64::checked_add`. -/
def checkedAdd64 (a b : Nat) : Option Nat :=
  if a + b < 2 ^ 64 then some (a + b) else none

/-- The `try_fold(0u64, checked_add)` sum used by the threshold
validators; fails at the first partial sum that leaves `u64`. -/
def trySum64 : Nat → List Nat → Except ZkpError Nat
  | acc, [] => .ok acc
  | acc, v :: t =>
    match checkedAdd64 acc v with
    | some s => trySum64 s t
    | none => .error (.invalidInput "integer overflow in sum calculation")

/-- `validate_threshold_params`: nonempty, overflow-checked sum, and the
sum must reach the threshold.  Returns the sum. -/
def validate_threshold_params (values : List Nat) (threshold : Nat) :
    Except ZkpError Nat :=
  if values.isEmpty then .error (.invalidInput "values cannot be empty")
  else
    match trySum64 0 values with
    | .error e => .error e
    | .ok sum =>
      if sum < threshold then .error (.invalidInput "sum is less than threshold")
      else .ok sum

/-- `validate_membership_params`. -/
def validate_membership_params (value : Nat) (set : List Nat) : Except ZkpError Unit :=
  if set.isEmpty then .error (.invalidInput "set cannot be empty")
  else if ¬ set.contains value then
    .error (.invalidInput "value is not in the provided set")
  else .ok ()

/-- `validate_improvement_params`; returns the difference. -/
def validate_improvement_params (old new : Nat) : Except ZkpError Nat :=
  if new ≤ old then
    .error (.invalidInput "new value must be greater than old value")
  else .ok (new - old)

/-- `windows(2)` ascending-order check used by `validate_consistency_params`. -/
def hasDescent : List Nat → Bool
  | a :: b :: t => a > b || hasDescent (b :: t)
  | _ => false

/-- `validate_consistency_params`. -/
def validate_consistency_params (data : List Nat) : Except ZkpError Unit :=
  if data.isEmpty then .error (.invalidInput "data cannot be empty")
  else if data.length = 1 then .ok ()
  else if hasDescent data then
    .error (.invalidInput "data is not in ascending order")
  else .ok ()

/-! ## Proof helpers (src/utils/proof_helpers.rs) -/

/-- `parse_and_validate_proof`: decode the envelope and check version and
scheme. -/
def parse_and_validate_proof (proof_bytes : Bytes) (expected_scheme : Nat) :
    Except ZkpError Proof :=
  match Proof.from_bytes proof_bytes with
  | none => .error (.invalidProofFormat "failed to parse proof")
  | some p =>
    if p.version ≠ PROOF_VERSION then
      .error (.invalidProofFormat "unsupported proof version")
    else if p.scheme ≠ expected_scheme then
      .error (.invalidProofFormat "wrong proof scheme")
    else .ok p

/-- `extract_bulletproofs_components`: split a bulletproofs backend blob at
the first `"COMMIT:"` marker and keep exactly 32 commitment bytes. -/
def extract_bulletproofs_components (backend_proof : Bytes) :
    Except ZkpError (Bytes × Bytes) :=
  match findMarker backend_proof with
  | none => .error (.invalidProofFormat "missing commitment marker")
  | some commit_pos =>
    let commit_start := commit_pos + 7
    if backend_proof.length < commit_start + 32 then
      .error (.invalidProofFormat "invalid commitment size")
    else
      .ok (backend_proof.take commit_pos, (backend_proof.drop commit_start).take 32)

/-- `reconstruct_bulletproofs_proof`. -/
def reconstruct_bulletproofs_proof (proof_bytes commitment : Bytes) : Bytes :=
  proof_bytes ++ marker ++ commitment

/-- `create_proof`. -/
def create_proof (scheme_id : Nat) (proof_bytes commitment : Bytes) :
    Except ZkpError Bytes :=
  .ok (Proof.new scheme_id proof_bytes commitment).to_bytes

/-- `validate_standard_commitment`. -/
def validate_standard_commitment (commitment : Bytes) : Except ZkpError Unit :=
  if commitment.length ≠ 32 then
    .error (.invalidProofFormat "invalid commitment size: expected 32 bytes")
  else .ok ()

/-- On a marker-clean framing whose tail holds at least 32 bytes,
extraction returns the payload and the first 32 tail bytes. -/
theorem extract_clean (payload tail : Bytes) (h : markerClean payload)
    (h32 : 32 ≤ tail.length) :
    extract_bulletproofs_components (payload ++ marker ++ tail)
      = .ok (payload, tail.take 32) := by
  unfold extract_bulletproofs_components
  rw [findMarker_clean_append payload tail h]
  have hlen : (payload ++ marker ++ tail).length = payload.length + 7 + tail.length := by
    simp [marker]
    omega
  dsimp only
  rw [if_neg (by rw [hlen]; omega)]
  rw [drop_after_marker, take_at_marker]

/-! ## Bulletproofs backend (src/backend/bulletproofs.rs)

Each prove function additionally receives the blindings drawn from the OS
RNG in the source, making the randomness explicit. -/

/-- The pre-marker payload of a threshold backend proof:
`threshold(u64 LE) ‖ len(u32 LE) ‖ range proof ‖ diff commitment`. -/
def thrPayload (threshold : Nat) (rp diff_commit : Bytes) : Bytes :=
  toLE 8 threshold ++ (toLE 4 rp.length ++ (rp ++ diff_commit))

/-- `BulletproofsBackend::prove_threshold`. -/
def bpProveThreshold (M : CryptoModel) (r : M.Scalar) (values : List Nat)
    (threshold : Nat) : Except String Bytes :=
  if values.isEmpty then .error "values cannot be empty"
  else
    match trySum64 0 values with
    | .error _ => .error "integer overflow in sum calculation"
    | .ok sum =>
      if sum < threshold then .error "threshold not met"
      else
        -- diff commitment linked to the sum commitment by the same blinding
        match M.rpProve "libzkp_threshold" (sum - threshold) r with
        | none => .error "range proof generation failed"
        | some (rp, diff_commit) =>
          .ok (thrPayload threshold rp diff_commit ++ marker
            ++ M.compress (M.commitN sum r))

/-- `BulletproofsBackend::verify_threshold`. -/
def bpVerifyThreshold (M : CryptoModel) (proof_data : Bytes) (threshold : Nat) :
    Bool :=
  match findMarker proof_data with
  | none => false
  | some commit_pos =>
    let proof_bytes := proof_data.take commit_pos
    let commit_start := commit_pos + 7
    if proof_data.length < commit_start + 32 then false
    else
      let reader := proof_bytes
      if reader.length < 8 then false
      else
        let proof_threshold := fromLE (reader.take 8)
        if proof_threshold ≠ threshold then false
        else
          let reader := reader.drop 8
          if reader.length < 4 then false
          else
            let rp_len := fromLE (reader.take 4)
            let reader := reader.drop 4
            if reader.length < rp_len then false
            else
              let rp_bytes := reader.take rp_len
              if ¬ M.rpParses rp_bytes then false
              else
                let reader := reader.drop rp_len
                if reader.length < 32 then false
                else
                  let diff_commit := reader.take 32
                  let sum_commit_bytes := (proof_data.drop commit_start).take 32
                  match M.decompress sum_commit_bytes with
                  | none => false
                  | some sum_commit_point =>
                    let expected_diff_commit :=
                      M.compress (M.psub sum_commit_point
                        (M.psmul (M.sFromNat threshold) M.B))
                    if expected_diff_commit ≠ diff_commit then false
                    else M.rpVerify "libzkp_threshold" rp_bytes expected_diff_commit

/-- The adjacent-difference range proofs of `prove_consistency`, indexed
by the current position and the number of remaining iterations (the loop
runs for `i` in `1 .. data.len()`). -/
def bpConsLoopGo (M : CryptoModel) (rs : Nat → M.Scalar) (data : List Nat) :
    Nat → Nat → Except String (List (Bytes × Bytes))
  | _, 0 => .ok []
  | i, n + 1 =>
    match M.rpProve "libzkp_consistency" (data.getD i 0 - data.getD (i - 1) 0)
        (M.ssub (rs i) (rs (i - 1))) with
    | none => .error "range proof generation failed"
    | some pc =>
      match bpConsLoopGo M rs data (i + 1) n with
      | .ok rest => .ok (pc :: rest)
      | .error e => .error e

/-- The `for i in 1..data.len()` proving loop of `prove_consistency`. -/
def bpConsLoop (M : CryptoModel) (rs : Nat → M.Scalar) (data : List Nat)
    (i : Nat) : Except String (List (Bytes × Bytes)) :=
  bpConsLoopGo M rs data i (data.length - i)

/-- The per-value compressed Pedersen commitments of `prove_consistency`. -/
def consCms (M : CryptoModel) (rs : Nat → M.Scalar) (data : List Nat) : List Bytes :=
  (List.range data.length).map (fun i => M.compress (M.commitN (data.getD i 0) (rs i)))

/-- The pre-marker payload of a consistency backend proof:
`n(u32 LE) ‖ value commitments ‖ length-prefixed range proofs ‖ diff
commitments`. -/
def consPayload (data : List Nat) (commitments : List Bytes)
    (rps : List (Bytes × Bytes)) : Bytes :=
  toLE 4 data.length ++ (commitments.flatten
    ++ ((rps.map (fun pc => toLE 4 pc.1.length ++ pc.1)).flatten
      ++ (rps.map Prod.snd).flatten))

/-- `BulletproofsBackend::prove_consistency`. -/
def bpProveConsistency (M : CryptoModel) (rs : Nat → M.Scalar) (data : List Nat) :
    Except String Bytes :=
  if data.isEmpty then .error "data cannot be empty"
  else if hasDescent data then .error "data inconsistent"
  else
    let commitments := consCms M rs data
    match bpConsLoop M rs data 1 with
    | .error e => .error e
    | .ok rps =>
      .ok (consPayload data commitments rps ++ marker ++ commitments.flatten)

/-- Split a reader into `n` chunks of `k` bytes, mirroring a loop that
takes `k` bytes and advances the reader each iteration. -/
def takeChunks (k : Nat) : Bytes → Nat → List Bytes
  | _, 0 => []
  | l, n + 1 => l.take k :: takeChunks k (l.drop k) n

/-- The range-proof reading loop of `verify_consistency`: reads `n`
length-prefixed range proofs, failing when bytes run short or a proof does
not deserialize; returns the proofs and the remaining reader. -/
def bpReadRps (M : CryptoModel) : Bytes → Nat → Option (List Bytes × Bytes)
  | reader, 0 => some ([], reader)
  | reader, n + 1 =>
    if reader.length < 4 then none
    else
      let len := fromLE (reader.take 4)
      let r1 := reader.drop 4
      if r1.length < len then none
      else
        let rp := r1.take len
        if M.rpParses rp then
          match bpReadRps M (r1.drop len) n with
          | some (l, r) => some (rp :: l, r)
          | none => none
        else none

/-- The per-pair checking loop of `verify_consistency`: for each adjacent
commitment pair, read a transmitted diff commitment, recompute
`C_i - C_{i-1}`, require equality, and verify the matching range proof. -/
def bpConsCheck (M : CryptoModel) : Bytes → List Bytes → List Bytes → Bool
  | reader, prev :: cur :: restC, rp :: restRp =>
    if reader.length < 32 then false
    else
      let diff_commit := reader.take 32
      match M.decompress cur, M.decompress prev with
      | some ci, some cp =>
        if M.compress (M.psub ci cp) ≠ diff_commit then false
        else if M.rpVerify "libzkp_consistency" rp diff_commit then
          bpConsCheck M (reader.drop 32) (cur :: restC) restRp
        else false
      | _, _ => false
  | _, _, _ => true

/-- `BulletproofsBackend::verify_consistency`. -/
def bpVerifyConsistency (M : CryptoModel) (proof_data : Bytes) : Bool :=
  match findMarker proof_data with
  | none => false
  | some commit_pos =>
    let proof_bytes := proof_data.take commit_pos
    let commit_start := commit_pos + 7
    let commitment_hash := proof_data.drop commit_start
    let reader := proof_bytes
    if reader.length < 4 then false
    else
      let num_values := fromLE (reader.take 4)
      let reader := reader.drop 4
      if num_values = 0 then false
      else if reader.length < num_values * 32 then false
      else
        let commitments := takeChunks 32 reader num_values
        let reader := reader.drop (num_values * 32)
        let expected_commitment := commitments.flatten
        if commitment_hash ≠ expected_commitment then false
        else
          match bpReadRps M reader (num_values - 1) with
          | none => false
          | some (rps, reader) => bpConsCheck M reader commitments rps

/-- `BulletproofsBackend::verify_set_membership`. -/
def bpVerifySetMembership (M : CryptoModel) (proof_data : Bytes)
    (set : List Nat) : Bool :=
  match findMarker proof_data with
  | none => false
  | some commit_pos =>
    let proof_bytes := proof_data.take commit_pos
    let commit_start := commit_pos + 7
    if proof_data.length < commit_start + 32 then false
    else
      let value_commit_bytes := (proof_data.drop commit_start).take 32
      match M.decompress value_commit_bytes with
      | none => false
      | some value_commit_point =>
        let reader := proof_bytes
        if reader.length < 4 then false
        else
          let set_size := fromLE (reader.take 4)
          let reader := reader.drop 4
          if set_size = 0 ∨ set_size ≠ set.length then false
          else if reader.length < set_size * 8 then false
          else
            let proof_set := (takeChunks 8 reader set_size).map fromLE
            let reader := reader.drop (set_size * 8)
            -- HashSet equality
            if ¬ (proof_set.all (fun x => set.contains x)
                ∧ set.all (fun x => proof_set.contains x)) then false
            else if reader.length < 32 then false
            else
              let index_commit_bytes := reader.take 32
              let reader := reader.drop 32
              if reader.length < 32 then false
              else
                match M.scalarFromCanonical (reader.take 32) with
                | none => false
                | some challenge =>
                  let reader := reader.drop 32
                  if reader.length < 32 then false
                  else
                    match M.scalarFromCanonical (reader.take 32) with
                    | none => false
                    | some response =>
                      let expected_challenge := M.scalarFromBytesModOrder
                        (M.membershipChallengeBytes value_commit_bytes
                          index_commit_bytes proof_set)
                      if ¬ M.sEq challenge expected_challenge then false
                      else
                        match M.decompress index_commit_bytes with
                        | none => false
                        | some index_commit_point =>
                          let lhs := M.padd index_commit_point
                            (M.psmul challenge value_commit_point)
                          (List.range proof_set.length).any (fun i =>
                            let rhs := M.commitS
                              (M.sadd (M.sFromNat i)
                                (M.smul challenge (M.sFromNat (proof_set.getD i 0))))
                              response
                            M.pEq lhs rhs)

/-! ## SNARK backend (src/backend/snark.rs) -/

def MAX_SET_SIZE : Nat := 64

/-- `SnarkBackend::prove_equality_zk`; empty bytes signal failure. -/
def snarkProveEqualityZk (M : CryptoModel) (a b : Nat) (hash_input : Bytes) : Bytes :=
  if a ≠ b then []
  else
    match M.grothProveEq a b hash_input with
    | none => []
    | some pf => pf

/-- `SnarkBackend::verify_equality_zk` (the 32-byte public-input length
check sits between key processing and verification; any failure yields
`false` either way). -/
def snarkVerifyEqualityZk (M : CryptoModel) (proof_data hash_input : Bytes) : Bool :=
  if hash_input.length ≠ 32 then false
  else M.grothVerifyEq proof_data hash_input

/-- `<SnarkBackend as ZkpBackend>::prove`: 48-byte input framing
`a(u64) ‖ b(u64) ‖ commitment(32)`. -/
def snarkProve (M : CryptoModel) (data : Bytes) : Bytes :=
  if data.length ≠ 48 then []
  else
    snarkProveEqualityZk M (fromLE (data.take 8)) (fromLE ((data.drop 8).take 8))
      (data.drop 16)

/-- `<SnarkBackend as ZkpBackend>::verify`. -/
def snarkVerify (M : CryptoModel) (proof data : Bytes) : Bool :=
  snarkVerifyEqualityZk M proof data

/-- `SnarkBackend::prove_membership_zk`: pre-checks the set size and the
position of the value, then proves the padded membership circuit. -/
def snarkProveMembershipZk (M : CryptoModel) (value : Nat) (set : List Nat)
    (commitment : Bytes) : Bytes :=
  if set.isEmpty ∨ set.length > MAX_SET_SIZE then []
  else
    match set.findIdx? (fun x => x == value) with
    | none => []
    | some _pos =>
      match M.grothProveMem value set commitment with
      | none => []
      | some pf => pf

/-- `SnarkBackend::verify_membership_zk`. -/
def snarkVerifyMembershipZk (M : CryptoModel) (proof_data : Bytes)
    (set : List Nat) (commitment : Bytes) : Bool :=
  if set.isEmpty ∨ set.length > MAX_SET_SIZE then false
  else if commitment.length ≠ 32 then false
  else M.grothVerifyMem proof_data set commitment

/-! ## STARK backend (src/backend/stark.rs) -/

/-- `<StarkBackend as ZkpBackend>::prove`: 16-byte framing
`old(u64) ‖ new(u64)`; `prove_improvement` rejects `new <= old` before
building the trace. -/
def starkProve (M : CryptoModel) (data : Bytes) : Bytes :=
  if data.length ≠ 16 then []
  else
    let old := fromLE (data.take 8)
    let new := fromLE ((data.drop 8).take 8)
    if new ≤ old then []
    else
      match M.starkProveRaw old new with
      | none => []
      | some pf => pf

/-- `<StarkBackend as ZkpBackend>::verify`. -/
def starkVerify (M : CryptoModel) (proof data : Bytes) : Bool :=
  if data.length ≠ 16 then false
  else M.starkVerifyRaw proof (fromLE (data.take 8)) (fromLE ((data.drop 8).take 8))

/-! ## Commitment helpers (src/utils/commitment.rs) -/

/-- `commit_value`. -/
def commit_value (M : CryptoModel) (value : Nat) : Bytes :=
  M.sha (toLE 8 value)

/-- `commit_improvement`. -/
def commit_improvement (old new : Nat) : Except ZkpError Bytes :=
  if new ≤ old then
    .error (.invalidInput "new value must be greater than old")
  else .ok (toLE 8 (new - old) ++ toLE 8 new)

/-- `extract_improvement_values`. -/
def extract_improvement_values (commitment : Bytes) :
    Except ZkpError (Nat × Nat) :=
  if commitment.length ≠ 16 then
    .error (.invalidProofFormat "invalid improvement commitment size")
  else
    let diff := fromLE (commitment.take 8)
    let new := fromLE ((commitment.drop 8).take 8)
    if diff = 0 then
      .error (.invalidProofFormat "improvement difference cannot be zero")
    else .ok (diff, new)

/-- `validate_improvement_commitment`: recompute `new` from `old + diff`
(with a `u64` overflow check) and require it to match. -/
def validate_improvement_commitment (commitment : Bytes) (old : Nat) :
    Except ZkpError Nat :=
  match extract_improvement_values commitment with
  | .error e => .error e
  | .ok (diff, new) =>
    match checkedAdd64 old diff with
    | none => .error (.invalidProofFormat "integer overflow in improvement calculation")
    | some calculated_new =>
      if new ≠ calculated_new then
        .error (.invalidProofFormat "inconsistent improvement values")
      else .ok new

/-! ## Predicate facade (src/proof/) -/

/-- `prove_threshold` (src/proof/threshold_proof.rs, scheme 3); backend
string errors surface as Python `ValueError`. -/
def prove_threshold (M : CryptoModel) (r : M.Scalar) (values : List Nat)
    (threshold : Nat) : Except PyErr Bytes :=
  match bpProveThreshold M r values threshold with
  | .error e => .error ⟨.valueError, e⟩
  | .ok backend_proof =>
    match extract_bulletproofs_components backend_proof with
    | .error e => .error (pyErrOfZkp e)
    | .ok (proof_bytes, commitment) =>
      liftZkp (create_proof 3 proof_bytes commitment)

/-- `verify_threshold` (src/proof/threshold_proof.rs). -/
def verify_threshold (M : CryptoModel) (proof : Bytes) (threshold : Nat) :
    Except PyErr Bool :=
  match parse_and_validate_proof proof 3 with
  | .error _ => .ok false
  | .ok p =>
    match validate_standard_commitment p.commitment with
    | .error _ => .ok false
    | .ok _ =>
      .ok (bpVerifyThreshold M (reconstruct_bulletproofs_proof p.proof p.commitment)
        threshold)

/-- `prove_consistency` (src/proof/consistency_proof.rs, scheme 6). -/
def prove_consistency (M : CryptoModel) (rs : Nat → M.Scalar) (data : List Nat) :
    Except PyErr Bytes :=
  match bpProveConsistency M rs data with
  | .error e => .error ⟨.valueError, e⟩
  | .ok backend_proof =>
    match extract_bulletproofs_components backend_proof with
    | .error e => .error (pyErrOfZkp e)
    | .ok (proof_bytes, commitment) =>
      liftZkp (create_proof 6 proof_bytes commitment)

/-- `verify_consistency` (src/proof/consistency_proof.rs). -/
def verify_consistency (M : CryptoModel) (proof : Bytes) : Except PyErr Bool :=
  match parse_and_validate_proof proof 6 with
  | .error _ => .ok false
  | .ok p =>
    .ok (bpVerifyConsistency M (reconstruct_bulletproofs_proof p.proof p.commitment))

/-- `prove_equality` (src/proof/equality_proof.rs, scheme 2). -/
def prove_equality (M : CryptoModel) (val1 val2 : Nat) : Except PyErr Bytes :=
  if val1 ≠ val2 then .error ⟨.valueError, "values are not equal"⟩
  else
    let commitment := M.sha (toLE 8 val1)
    let snark_proof := snarkProve M (toLE 8 val1 ++ toLE 8 val2 ++ commitment)
    if snark_proof.isEmpty then
      .error ⟨.runtimeError, "SNARK proof generation failed"⟩
    else .ok (Proof.new 2 snark_proof commitment).to_bytes

/-- `verify_equality` (src/proof/equality_proof.rs). -/
def verify_equality (M : CryptoModel) (proof : Bytes) (val1 val2 : Nat) :
    Except PyErr Bool :=
  match Proof.from_bytes proof with
  | none => .ok false
  | some p =>
    if p.version ≠ PROOF_VERSION ∨ p.scheme ≠ 2 then .ok false
    else if val1 ≠ val2 then .ok false
    else
      let expected_commitment := M.sha (toLE 8 val1)
      if p.commitment ≠ expected_commitment then .ok false
      else .ok (snarkVerify M p.proof expected_commitment)

/-- `prove_membership` (src/proof/set_membership.rs, scheme 4): the set is
embedded length-prefixed ahead of the SNARK proof. -/
def prove_membership (M : CryptoModel) (value : Nat) (set : List Nat) :
    Except PyErr Bytes :=
  if set.isEmpty then .error ⟨.valueError, "set cannot be empty"⟩
  else
    let commitment := commit_value M value
    if commitment.length ≠ 32 then .error ⟨.typeError, "invalid commitment size"⟩
    else
      let snark_proof := snarkProveMembershipZk M value set commitment
      if snark_proof.isEmpty then
        .error ⟨.runtimeError, "SNARK membership proof generation failed"⟩
      else
        .ok (Proof.new 4
          (toLE 4 set.length ++ (set.map (toLE 8)).flatten ++ snark_proof)
          commitment).to_bytes

/-- `verify_membership` (src/proof/set_membership.rs). -/
def verify_membership (M : CryptoModel) (proof : Bytes) (set : List Nat) :
    Except PyErr Bool :=
  match parse_and_validate_proof proof 4 with
  | .error _ => .ok false
  | .ok p =>
    match validate_standard_commitment p.commitment with
    | .error _ => .ok false
    | .ok _ =>
      if p.proof.length < 4 then .ok false
      else
        let set_size := fromLE (p.proof.take 4)
        let needed := set_size * 8 + 4
        if p.proof.length ≤ needed then .ok false
        else
          let embedded_set := (takeChunks 8 (p.proof.drop 4) set_size).map fromLE
          let snark_bytes := p.proof.drop needed
          if set.length ≠ embedded_set.length then .ok false
          else if set.mergeSort (· ≤ ·) ≠ embedded_set.mergeSort (· ≤ ·) then .ok false
          else .ok (snarkVerifyMembershipZk M snark_bytes embedded_set p.commitment)

/-- `prove_improvement` (src/proof/improvement_proof.rs, scheme 5). -/
def prove_improvement (M : CryptoModel) (old new : Nat) : Except PyErr Bytes :=
  match validate_improvement_params old new with
  | .error e => .error (pyErrOfZkp e)
  | .ok _ =>
    let stark_proof := starkProve M (toLE 8 old ++ toLE 8 new)
    if stark_proof.isEmpty then
      .error ⟨.runtimeError, "STARK proof generation failed"⟩
    else
      match commit_improvement old new with
      | .error e => .error (pyErrOfZkp e)
      | .ok commitment => .ok (Proof.new 5 stark_proof commitment).to_bytes

/-- `verify_improvement` (src/proof/improvement_proof.rs). -/
def verify_improvement (M : CryptoModel) (proof : Bytes) (old : Nat) :
    Except PyErr Bool :=
  match parse_and_validate_proof proof 5 with
  | .error _ => .ok false
  | .ok p =>
    match validate_improvement_commitment p.commitment old with
    | .error _ => .ok false
    | .ok new =>
      .ok (starkVerify M p.proof (toLE 8 old ++ toLE 8 new))

/-- The pre-marker payload of a range backend proof:
`min ‖ max ‖ len ‖ bp_min ‖ len ‖ bp_max ‖ diff commits`. -/
def rangePayload (min max : Nat) (rp_min rp_max dmin dmax : Bytes) : Bytes :=
  toLE 8 min ++ (toLE 8 max
    ++ (toLE 4 rp_min.length ++ (rp_min
      ++ (toLE 4 rp_max.length ++ (rp_max ++ (dmin ++ dmax))))))

/-- `BulletproofsBackend::prove_range_with_bounds`. -/
def bpProveRangeWithBounds (M : CryptoModel) (r : M.Scalar) (value min max : Nat) :
    Except String Bytes :=
  if value < min ∨ value > max then .error "value out of range"
  else
    let value_commit := M.compress (M.commitN value r)
    match M.rpProve "libzkp_range_min" (value - min) r with
    | none => .error "min range proof generation failed"
    | some (rp_min, diff_min_commit) =>
      match M.rpProve "libzkp_range_max" (max - value) (M.sneg r) with
      | none => .error "max range proof generation failed"
      | some (rp_max, diff_max_commit) =>
        .ok (rangePayload min max rp_min rp_max diff_min_commit diff_max_commit
          ++ marker ++ value_commit)

/-- `BulletproofsBackend::verify_range_with_bounds`. -/
def bpVerifyRangeWithBounds (M : CryptoModel) (proof_data : Bytes)
    (min max : Nat) : Bool :=
  match findMarker proof_data with
  | none => false
  | some commit_pos =>
    let proof_bytes := proof_data.take commit_pos
    let commit_start := commit_pos + 7
    if proof_data.length < commit_start + 32 then false
    else
      match M.decompress ((proof_data.drop commit_start).take 32) with
      | none => false
      | some value_commit_point =>
        let reader := proof_bytes
        if reader.length < 16 then false
        else
          let proof_min := fromLE (reader.take 8)
          let proof_max := fromLE ((reader.drop 8).take 8)
          if proof_min ≠ min ∨ proof_max ≠ max then false
          else
            let reader := reader.drop 16
            if reader.length < 4 then false
            else
              let rp_min_len := fromLE (reader.take 4)
              let reader := reader.drop 4
              if reader.length < rp_min_len then false
              else
                let rp_min := reader.take rp_min_len
                if ¬ M.rpParses rp_min then false
                else
                  let reader := reader.drop rp_min_len
                  if reader.length < 4 then false
                  else
                    let rp_max_len := fromLE (reader.take 4)
                    let reader := reader.drop 4
                    if reader.length < rp_max_len then false
                    else
                      let rp_max := reader.take rp_max_len
                      if ¬ M.rpParses rp_max then false
                      else
                        let reader := reader.drop rp_max_len
                        if reader.length < 64 then false
                        else
                          let diff_min_commit := reader.take 32
                          let diff_max_commit := (reader.drop 32).take 32
                          let expected_min_commit := M.compress
                            (M.psub value_commit_point (M.psmul (M.sFromNat min) M.B))
                          let expected_max_commit := M.compress
                            (M.psub (M.psmul (M.sFromNat max) M.B) value_commit_point)
                          if expected_min_commit ≠ diff_min_commit
                              ∨ expected_max_commit ≠ diff_max_commit then false
                          else
                            M.rpVerify "libzkp_range_min" rp_min expected_min_commit
                              && M.rpVerify "libzkp_range_max" rp_max expected_max_commit

/-- `prove_range` facade. -/
def prove_range (M : CryptoModel) (r : M.Scalar) (value min max : Nat) :
    Except PyErr Bytes :=
  match validate_range_params value min max with
  | .error e => .error (pyErrOfZkp e)
  | .ok _ =>
    match bpProveRangeWithBounds M r value min max with
    | .error e => .error (pyErrOfZkp (.backendError e))
    | .ok backend_proof =>
      match extract_bulletproofs_components backend_proof with
      | .error e => .error (pyErrOfZkp e)
      | .ok (proof_bytes, commitment) =>
        liftZkp (create_proof 1 proof_bytes commitment)

/-- `verify_range` facade. -/
def verify_range (M : CryptoModel) (proof : Bytes) (min max : Nat) :
    Except PyErr Bool :=
  if min > max then .ok false
  else
    match parse_and_validate_proof proof 1 with
    | .error _ => .ok false
    | .ok p =>
      match validate_standard_commitment p.commitment with
      | .error _ => .ok false
      | .ok _ =>
        .ok (bpVerifyRangeWithBounds M
          (reconstruct_bulletproofs_proof p.proof p.commitment) min max)

/-! ## Parallel verification (src/utils/performance.rs, mod parallel) -/

/-- `verify_single_proof`: type-tag dispatch used by
`verify_proofs_parallel`.  Note that the `"membership"` arm hands the
payload to the Bulletproofs sigma-protocol verifier. -/
def verify_single_proof (M : CryptoModel) (proof_data : Bytes)
    (proof_type : String) : Bool :=
  match Proof.from_bytes proof_data with
  | none => false
  | some p =>
    if p.version ≠ PROOF_VERSION then false
    else
      match proof_type with
      | "range" =>
        if p.scheme ≠ 1 then false
        else if p.proof.length < 16 then false
        else
          let min := fromLE (p.proof.take 8)
          let max := fromLE ((p.proof.drop 8).take 8)
          if min > max then false
          else if p.commitment.length ≠ 32 then false
          else bpVerifyRangeWithBounds M
            (reconstruct_bulletproofs_proof p.proof p.commitment) min max
      | "equality" =>
        if p.scheme ≠ 2 then false
        else if p.commitment.length ≠ 32 then false
        else snarkVerify M p.proof p.commitment
      | "threshold" =>
        if p.scheme ≠ 3 then false
        else if p.proof.length < 8 then false
        else
          let threshold := fromLE (p.proof.take 8)
          if p.commitment.length ≠ 32 then false
          else bpVerifyThreshold M
            (reconstruct_bulletproofs_proof p.proof p.commitment) threshold
      | "membership" =>
        if p.scheme ≠ 4 then false
        else if p.proof.length < 4 then false
        else
          let set_size := fromLE (p.proof.take 4)
          let needed := 4 + set_size * 8
          if p.proof.length < needed then false
          else
            let set := (takeChunks 8 (p.proof.drop 4) set_size).map fromLE
            if p.commitment.length ≠ 32 then false
            else bpVerifySetMembership M
              (reconstruct_bulletproofs_proof p.proof p.commitment) set
      | "improvement" =>
        if p.scheme ≠ 5 then false
        else if p.commitment.length ≠ 16 then false
        else
          let diff := fromLE (p.commitment.take 8)
          let new := fromLE ((p.commitment.drop 8).take 8)
          if diff = 0 then false
          else if new < diff then false
          else
            let old := new - diff
            starkVerify M p.proof (toLE 8 old ++ toLE 8 new)
      | "consistency" =>
        if p.scheme ≠ 6 then false
        else bpVerifyConsistency M
          (reconstruct_bulletproofs_proof p.proof p.commitment)
      | _ => false

/-- `verify_proofs_parallel`: rayon preserves input order in `collect`,
modelled by `map`. -/
def verify_proofs_parallel (M : CryptoModel) (proofs : List (Bytes × String)) :
    List Bool :=
  proofs.map (fun pd => verify_single_proof M pd.1 pd.2)

/-! ## Composite proofs (src/utils/composition.rs), parameterised by the
SHA-256 function `H`. -/

/-- A composite proof: inner envelopes, key/value metadata, and the
integrity digest.  Metadata keys are modelled as raw bytes; the UTF-8
validity check of the source cannot fail on round-tripped data and is not
needed by any claim. -/
structure CompositeProof where
  proofs : List Proof
  metadata : List (Bytes × Bytes)
  composition_hash : Bytes
  deriving DecidableEq, Repr

/-- `CompositeProof::compute_composition_hash`: a running SHA-256 over the
domain tag, the proof count as u32 LE, then each serialized envelope. -/
def compute_composition_hash (H : Bytes → Bytes) (proofs : List Proof) : Bytes :=
  H (proofs.foldl (fun acc p => acc ++ p.to_bytes)
    ([67, 79, 77, 80, 79, 83, 73, 84, 69, 95, 80, 82, 79, 79, 70, 58]
      ++ toLE 4 proofs.length))

/-- `CompositeProof::new`. -/
def CompositeProof.new (H : Bytes → Bytes) (proofs : List Proof) :
    Except ZkpError CompositeProof :=
  if proofs.isEmpty then
    .error (.invalidInput "cannot create composite proof from empty list")
  else .ok ⟨proofs, [], compute_composition_hash H proofs⟩

/-- `HashMap::insert` on the metadata association list. -/
def metaInsert (key value : Bytes) : List (Bytes × Bytes) → List (Bytes × Bytes)
  | [] => [(key, value)]
  | (k, v) :: t => if k = key then (key, value) :: t else (k, v) :: metaInsert key value t

/-- `CompositeProof::add_metadata`: inserts and recomputes the hash (which
depends only on the proofs). -/
def CompositeProof.add_metadata (H : Bytes → Bytes) (cp : CompositeProof)
    (key value : Bytes) : CompositeProof :=
  { proofs := cp.proofs,
    metadata := metaInsert key value cp.metadata,
    composition_hash := compute_composition_hash H cp.proofs }

/-- `CompositeProof::verify_integrity`. -/
def CompositeProof.verify_integrity (H : Bytes → Bytes) (cp : CompositeProof) : Bool :=
  cp.composition_hash = compute_composition_hash H cp.proofs

/-- `CompositeProof::to_bytes`. -/
def CompositeProof.to_bytes (cp : CompositeProof) : Bytes :=
  [67, 79, 77, 80] ++ toLE 4 cp.proofs.length ++ toLE 4 cp.metadata.length
    ++ (cp.proofs.map (fun p => toLE 4 p.to_bytes.length ++ p.to_bytes)).flatten
    ++ (cp.metadata.map (fun kv => toLE 4 kv.1.length ++ toLE 4 kv.2.length
      ++ kv.1 ++ kv.2)).flatten
    ++ cp.composition_hash

/-- The proof-reading loop of `CompositeProof::from_bytes`: reads `n`
length-prefixed envelopes starting at `offset`, returning the parsed
envelopes and the offset after them. -/
def compositeReadProofs (data : Bytes) : Nat → Nat →
    Except ZkpError (List Proof × Nat)
  | offset, 0 => .ok ([], offset)
  | offset, n + 1 =>
    if offset + 4 > data.length then
      .error (.invalidProofFormat "truncated proof length")
    else
      let proof_len := fromLE ((data.drop offset).take 4)
      let offset := offset + 4
      if offset + proof_len > data.length then
        .error (.invalidProofFormat "truncated proof data")
      else
        match Proof.from_bytes ((data.drop offset).take proof_len) with
        | none => .error (.invalidProofFormat "invalid proof in composite")
        | some p =>
          match compositeReadProofs data (offset + proof_len) n with
          | .ok (ps, off) => .ok (p :: ps, off)
          | .error e => .error e

/-- The metadata-reading loop of `CompositeProof::from_bytes`. -/
def compositeReadMeta (data : Bytes) : Nat → Nat → List (Bytes × Bytes) →
    Except ZkpError (List (Bytes × Bytes) × Nat)
  | offset, 0, acc => .ok (acc, offset)
  | offset, n + 1, acc =>
    if offset + 8 > data.length then
      .error (.invalidProofFormat "truncated metadata header")
    else
      let key_len := fromLE ((data.drop offset).take 4)
      let value_len := fromLE ((data.drop (offset + 4)).take 4)
      let offset := offset + 8
      if key_len > 1024 ∨ value_len > 65536 then
        .error (.invalidProofFormat "metadata size too large")
      else if offset + key_len + value_len > data.length then
        .error (.invalidProofFormat "truncated metadata content")
      else
        let key := (data.drop offset).take key_len
        let value := (data.drop (offset + key_len)).take value_len
        compositeReadMeta data (offset + key_len + value_len) n (metaInsert key value acc)

/-- `CompositeProof::from_bytes`. -/
def CompositeProof.from_bytes (H : Bytes → Bytes) (data : Bytes) :
    Except ZkpError CompositeProof :=
  if data.length < 12 then
    .error (.invalidProofFormat "composite proof too short")
  else if data.take 4 ≠ [67, 79, 77, 80] then
    .error (.invalidProofFormat "invalid composite proof header")
  else
    let num_proofs := fromLE ((data.drop 4).take 4)
    let num_metadata := fromLE ((data.drop 8).take 4)
    if num_proofs > 1000 ∨ num_metadata > 1000 then
      .error (.invalidProofFormat "composite proof has too many items")
    else
      match compositeReadProofs data 12 num_proofs with
      | .error e => .error e
      | .ok (proofs, offset) =>
        match compositeReadMeta data offset num_metadata [] with
        | .error e => .error e
        | .ok (metadata, offset) =>
          if offset + 32 > data.length then
            .error (.invalidProofFormat "missing composition hash")
          else
            let composition_hash := (data.drop offset).take 32
            let expected_hash := compute_composition_hash H proofs
            if composition_hash ≠ expected_hash then
              .error (.invalidProofFormat "composition hash mismatch")
            else .ok ⟨proofs, metadata, composition_hash⟩

/-! ## Composite facade (src/advanced/composite.rs) -/

/-- `verify_composite_proof`: decode errors propagate as Python
exceptions via `map_err(PyErr::from)?`. -/
def verify_composite_proof (H : Bytes → Bytes) (composite_bytes : Bytes) :
    Except PyErr Bool :=
  match CompositeProof.from_bytes H composite_bytes with
  | .error e => .error (pyErrOfZkp e)
  | .ok composite => .ok (composite.verify_integrity H)

/-! ## Batch registry and dispatcher (src/advanced/batch.rs,
src/utils/composition.rs) -/

/-- `BatchOperation`. -/
inductive BatchOperation where
  | RangeProof (value min max : Nat)
  | EqualityProof (val1 val2 : Nat)
  | ThresholdProof (values : List Nat) (threshold : Nat)
  | MembershipProof (value : Nat) (set : List Nat)
  | ImprovementProof (old new : Nat)
  | ConsistencyProof (data : List Nat)
  deriving DecidableEq, Repr

/-- `ProofBatch` is its ordered operation list. -/
abbrev ProofBatch := List BatchOperation

/-- The process-wide `BATCH_REGISTRY` and `BATCH_COUNTER`, made explicit
as passed-around state.  Registry keys are unique. -/
structure BatchState where
  registry : List (Nat × ProofBatch)
  counter : Nat
  deriving DecidableEq, Repr

def initialBatchState : BatchState := ⟨[], 0⟩

/-- `HashMap::get` on the registry. -/
def registryGet (id : Nat) : List (Nat × ProofBatch) → Option ProofBatch
  | [] => none
  | (k, b) :: t => if k = id then some b else registryGet id t

/-- `HashMap::insert` (replacing an existing key). -/
def registryInsert (id : Nat) (b : ProofBatch) :
    List (Nat × ProofBatch) → List (Nat × ProofBatch)
  | [] => [(id, b)]
  | (k, v) :: t => if k = id then (id, b) :: t else (k, v) :: registryInsert id b t

/-- `HashMap::remove` (dropping the key). -/
def registryRemove (id : Nat) :
    List (Nat × ProofBatch) → List (Nat × ProofBatch)
  | [] => []
  | (k, v) :: t => if k = id then t else (k, v) :: registryRemove id t

/-- `create_proof_batch`. -/
def create_proof_batch (st : BatchState) : BatchState × Nat :=
  (⟨registryInsert st.counter [] st.registry, st.counter + 1⟩, st.counter)

/-- `with_batch_mut`: mutate the batch under the lock, or fail when the id
is unknown. -/
def with_batch_mut (st : BatchState) (batch_id : Nat)
    (f : ProofBatch → ProofBatch) : BatchState × Except PyErr Unit :=
  match registryGet batch_id st.registry with
  | none => (st, .error (pyErrOfZkp (.invalidInput "Invalid batch ID")))
  | some batch =>
    (⟨registryInsert batch_id (f batch) st.registry, st.counter⟩, .ok ())

/-- `batch_add_range_proof`: validates, then appends. -/
def batch_add_range_proof (st : BatchState) (batch_id value min max : Nat) :
    BatchState × Except PyErr Unit :=
  match validate_range_params value min max with
  | .error e => (st, .error (pyErrOfZkp e))
  | .ok _ => with_batch_mut st batch_id
      (fun b => b ++ [.RangeProof value min max])

/-- `batch_add_equality_proof`. -/
def batch_add_equality_proof (st : BatchState) (batch_id val1 val2 : Nat) :
    BatchState × Except PyErr Unit :=
  if val1 ≠ val2 then
    (st, .error (pyErrOfZkp (.invalidInput "values must be equal")))
  else with_batch_mut st batch_id (fun b => b ++ [.EqualityProof val1 val2])

/-- `batch_add_threshold_proof`. -/
def batch_add_threshold_proof (st : BatchState) (batch_id : Nat)
    (values : List Nat) (threshold : Nat) : BatchState × Except PyErr Unit :=
  match validate_threshold_params values threshold with
  | .error e => (st, .error (pyErrOfZkp e))
  | .ok _ => with_batch_mut st batch_id
      (fun b => b ++ [.ThresholdProof values threshold])

/-- Modelled from the spec: `batch_add_membership_proof` is registered in
the module initialiser (src/lib.rs) but its definition is not among the
sources; per spec sections 4.9 and 4.3 it validates membership
(`value ∈ set`, nonempty set) and appends the typed operation. -/
def batch_add_membership_proof (st : BatchState) (batch_id value : Nat)
    (set : List Nat) : BatchState × Except PyErr Unit :=
  match validate_membership_params value set with
  | .error e => (st, .error (pyErrOfZkp e))
  | .ok _ => with_batch_mut st batch_id (fun b => b ++ [.MembershipProof value set])

/-- Modelled from the spec: `batch_add_improvement_proof` is registered in
src/lib.rs but not defined in the sources; per spec sections 4.9 and 4.3
it validates `new > old` and appends the typed operation. -/
def batch_add_improvement_proof (st : BatchState) (batch_id old new : Nat) :
    BatchState × Except PyErr Unit :=
  match validate_improvement_params old new with
  | .error e => (st, .error (pyErrOfZkp e))
  | .ok _ => with_batch_mut st batch_id (fun b => b ++ [.ImprovementProof old new])

/-- Modelled from the spec: `batch_add_consistency_proof` is registered in
src/lib.rs but not defined in the sources; per spec sections 4.9 and 4.3
it validates nonempty monotone data and appends the typed operation. -/
def batch_add_consistency_proof (st : BatchState) (batch_id : Nat)
    (data : List Nat) : BatchState × Except PyErr Unit :=
  match validate_consistency_params data with
  | .error e => (st, .error (pyErrOfZkp e))
  | .ok _ => with_batch_mut st batch_id (fun b => b ++ [.ConsistencyProof data])

/-- `process_batch_operation`: dispatch to the predicate facade, mapping
failures to `ProofGenerationFailed`. -/
def process_batch_operation (M : CryptoModel) (rs : Nat → M.Scalar) :
    BatchOperation → Except ZkpError Bytes
  | .RangeProof value min max =>
    match prove_range M (rs 0) value min max with
    | .ok p => .ok p
    | .error _ => .error (.proofGenerationFailed "Range proof failed")
  | .EqualityProof val1 val2 =>
    match prove_equality M val1 val2 with
    | .ok p => .ok p
    | .error _ => .error (.proofGenerationFailed "Equality proof failed")
  | .ThresholdProof values threshold =>
    match prove_threshold M (rs 0) values threshold with
    | .ok p => .ok p
    | .error _ => .error (.proofGenerationFailed "Threshold proof failed")
  | .MembershipProof value set =>
    match prove_membership M value set with
    | .ok p => .ok p
    | .error _ => .error (.proofGenerationFailed "Membership proof failed")
  | .ImprovementProof old new =>
    match prove_improvement M old new with
    | .ok p => .ok p
    | .error _ => .error (.proofGenerationFailed "Improvement proof failed")
  | .ConsistencyProof data =>
    match prove_consistency M rs data with
    | .ok p => .ok p
    | .error _ => .error (.proofGenerationFailed "Consistency proof failed")

/-- Ordered collection of per-operation results (rayon preserves input
order; a failure aborts with the first error). -/
def collectResults (M : CryptoModel) (rnd : Nat → Nat → M.Scalar) (i : Nat) :
    List BatchOperation → Except ZkpError (List Bytes)
  | [] => .ok []
  | op :: t =>
    match process_batch_operation M (rnd i) op with
    | .error e => .error e
    | .ok p =>
      match collectResults M rnd (i + 1) t with
      | .ok ps => .ok (p :: ps)
      | .error e => .error e

/-- `process_batch`: removes the batch from the registry first, then
proves every operation, preserving input order.  `rnd i` supplies the
blindings the i-th operation draws from the OS RNG. -/
def process_batch (M : CryptoModel) (rnd : Nat → Nat → M.Scalar)
    (st : BatchState) (batch_id : Nat) :
    BatchState × Except PyErr (List Bytes) :=
  match registryGet batch_id st.registry with
  | none => (st, .error (pyErrOfZkp (.invalidInput "Invalid batch ID")))
  | some batch =>
    let st' : BatchState := ⟨registryRemove batch_id st.registry, st.counter⟩
    match collectResults M rnd 0 batch with
    | .ok ps => (st', .ok ps)
    | .error e => (st', .error (pyErrOfZkp e))

/-- `clear_batch`: removes whatever is there and always succeeds. -/
def clear_batch (st : BatchState) (batch_id : Nat) :
    BatchState × Except PyErr Unit :=
  (⟨registryRemove batch_id st.registry, st.counter⟩, .ok ())

/-! ## A computable model instance

`TrivialModel` realises the `CryptoModel` contracts over the free
commitment group `Int × Int` (value slot, blinding slot): commitments are
perfectly binding, compression is an injective 32-byte encoding, and
proofs carry their commitment.  It exists to witness the structure and to
let scenarios run inside the kernel; no secrecy properties are claimed for
it. -/

/-- Injective encoding of an integer as a byte-slot value (even for
nonnegative, odd for negative). -/
def encInt : Int → Nat
  | .ofNat n => 2 * n
  | .negSucc n => 2 * n + 1

def decInt (n : Nat) : Int :=
  if n % 2 = 0 then .ofNat (n / 2) else .negSucc (n / 2)

theorem decInt_encInt (i : Int) : decInt (encInt i) = i := by
  cases i with
  | ofNat n => simp [encInt, decInt, Nat.mul_div_cancel_left]
  | negSucc n =>
    simp only [encInt, decInt]
    rw [if_neg (by omega)]
    congr 1
    omega

def trivCompress (p : Int × Int) : Bytes :=
  encInt p.1 :: encInt p.2 :: List.replicate 30 0

def trivDecompress (l : Bytes) : Option (Int × Int) :=
  match l with
  | a :: b :: rest =>
    if rest = List.replicate 30 0 then some (decInt a, decInt b) else none
  | _ => none

def TrivialModel : CryptoModel where
  Point := Int × Int
  Scalar := Int
  sFromNat := Int.ofNat
  ssub := fun a b => a - b
  sneg := fun a => -a
  psub := fun p q => (p.1 - q.1, p.2 - q.2)
  padd := fun p q => (p.1 + q.1, p.2 + q.2)
  psmul := fun s p => (s * p.1, s * p.2)
  B := (1, 0)
  commitS := fun v r => (v, r)
  compress := trivCompress
  decompress := trivDecompress
  sadd := fun a b => a + b
  smul := fun a b => a * b
  sEq := fun a b => a == b
  pEq := fun p q => p == q
  scalarFromCanonical := fun l => if l.length = 32 then some (decInt (l.headD 0)) else none
  scalarFromBytesModOrder := fun l => decInt (l.headD 0)
  membershipChallengeBytes := fun _ _ _ => List.replicate 32 0
  rpProve := fun _lbl v r => some (trivCompress (v, r), trivCompress (v, r))
  rpParses := fun _ => true
  rpVerify := fun _lbl pf cm => pf == cm
  sha := fun l => (l.foldl (fun a b => a + b) 0 % 256) :: List.replicate 31 0
  grothProveEq := fun a _b h => some (toLE 8 a ++ h.take 32)
  grothVerifyEq := fun pf h => pf.drop 8 == h.take 32 && decide (8 ≤ pf.length)
  grothProveMem := fun _v _set cm => some (0 :: cm.take 32)
  grothVerifyMem := fun pf _set cm => pf == 0 :: cm.take 32
  starkProveRaw := fun old new => some (toLE 8 old ++ toLE 8 new ++ [1])
  starkVerifyRaw := fun pf old new => pf == toLE 8 old ++ toLE 8 new ++ [1]
  sha_len := by intro l; simp
  compress_len := by intro p; simp [trivCompress]
  decompress_compress := by
    intro p
    simp [trivCompress, trivDecompress, decInt_encInt]
  commit_sub_base := by
    intro a m r hm
    simp only [Prod.mk.injEq]
    constructor
    · simp; omega
    · ring_nf
  base_sub_commit := by
    intro a m r hm
    simp only [Prod.mk.injEq]
    constructor
    · simp; omega
    · ring_nf
  commit_sub_commit := by
    intro a b r s hm
    simp only [Prod.mk.injEq]
    constructor
    · simp; omega
    · ring_nf
  rp_some := by intro lbl v r _; rfl
  rp_spec := by
    intro lbl v r pf cm h
    simp only [Option.some.injEq, Prod.mk.injEq] at h
    obtain ⟨hpf, hcm⟩ := h
    subst hpf; subst hcm
    refine ⟨rfl, rfl, ?_, by simp [trivCompress]⟩
    simp [CryptoModel.commitN]
  gEq_some := by intro a _; rfl
  gEq_spec := by
    intro a b h pf hp
    simp only [Option.some.injEq] at hp
    subst hp
    refine ⟨by simp [toLE], ?_, ?_⟩
    · simp [toLE_length]
      omega
    · have hd : (toLE 8 a ++ h.take 32).drop 8 = h.take 32 :=
        drop_app_len _ _ 8 (toLE_length 8 a)
      simp [hd, toLE_length]
  gMem_some := by intro v set cm _ _; rfl
  gMem_spec := by
    intro v set cm pf hp
    simp only [Option.some.injEq] at hp
    subst hp
    refine ⟨by simp, by simp only [List.length_cons, List.length_take]; omega, by simp⟩
  stark_some := by intro old new _ _; rfl
  stark_spec := by
    intro old new pf hp
    simp only [Option.some.injEq] at hp
    subst hp
    refine ⟨by simp, ?_, by simp⟩
    simp [toLE_length, MAX_PROOF_PAYLOAD_BYTES]

/-! ## Supporting lemmas for the scenario theorems -/

theorem fromLE8 (n : Nat) (h : n < 2 ^ 64) : fromLE (toLE 8 n) = n := by
  rw [fromLE_toLE]
  norm_num
  omega

theorem fromLE4 (n : Nat) (h : n < 2 ^ 32) : fromLE (toLE 4 n) = n := by
  rw [fromLE_toLE]
  norm_num
  omega

theorem thrPayload_length (t : Nat) (rp dc : Bytes) :
    (thrPayload t rp dc).length = 12 + rp.length + dc.length := by
  simp [thrPayload, toLE_length]
  omega

theorem take_all_of_len (l : Bytes) (n : Nat) (h : l.length = n) : l.take n = l := by
  subst h
  exact List.take_length l

/-- `prove_threshold` backend success on a satisfied threshold. -/
theorem bpProveThreshold_ok (M : CryptoModel) (r : M.Scalar) (values : List Nat)
    (t s : Nat) (rp dc : Bytes)
    (hne : values.isEmpty = false)
    (hsum : trySum64 0 values = .ok s) (hts : t ≤ s)
    (hrp : M.rpProve "libzkp_threshold" (s - t) r = some (rp, dc)) :
    bpProveThreshold M r values t
      = .ok (thrPayload t rp dc ++ marker ++ M.compress (M.commitN s r)) := by
  unfold bpProveThreshold
  rw [if_neg (by simp [hne]), hsum]
  dsimp only
  rw [if_neg (by omega), hrp]

/-- Facade `prove_threshold` success, producing the scheme-3 envelope. -/
theorem prove_threshold_ok (M : CryptoModel) (r : M.Scalar) (values : List Nat)
    (t s : Nat) (rp dc : Bytes)
    (hne : values.isEmpty = false)
    (hsum : trySum64 0 values = .ok s) (hts : t ≤ s)
    (hrp : M.rpProve "libzkp_threshold" (s - t) r = some (rp, dc))
    (hmc : markerClean (thrPayload t rp dc)) :
    prove_threshold M r values t
      = .ok (Proof.new 3 (thrPayload t rp dc)
          (M.compress (M.commitN s r))).to_bytes := by
  unfold prove_threshold
  rw [bpProveThreshold_ok M r values t s rp dc hne hsum hts hrp]
  dsimp only
  rw [extract_clean _ _ hmc (by rw [M.compress_len]), take_all_of_len _ _ (M.compress_len _)]
  rfl

/-- The verification walk of `verify_threshold` over a well-framed
payload: the embedded threshold must equal the queried one, then the
linkage and range-proof checks decide the result. -/
theorem bpVerifyThreshold_frame (M : CryptoModel) (t q : Nat) (rp dc sc : Bytes)
    (ht : t < 2 ^ 64) (hdc : dc.length = 32) (hsc : sc.length = 32)
    (hrpl : rp.length < 2 ^ 32)
    (hmc : markerClean (thrPayload t rp dc)) :
    bpVerifyThreshold M (thrPayload t rp dc ++ marker ++ sc) q =
      if q = t then
        (if ¬ M.rpParses rp then false
         else match M.decompress sc with
         | none => false
         | some p =>
           if M.compress (M.psub p (M.psmul (M.sFromNat q) M.B)) ≠ dc then false
           else M.rpVerify "libzkp_threshold" rp
             (M.compress (M.psub p (M.psmul (M.sFromNat q) M.B))))
      else false := by
  have hPlen := thrPayload_length t rp dc
  have hTlen : ((thrPayload t rp dc) ++ marker ++ sc).length
      = (thrPayload t rp dc).length + 7 + sc.length := by
    simp [marker]
    omega
  have h8 : (thrPayload t rp dc).take 8 = toLE 8 t :=
    take_app_len _ _ 8 (toLE_length 8 t)
  have hd8 : (thrPayload t rp dc).drop 8 = toLE 4 rp.length ++ (rp ++ dc) :=
    drop_app_len _ _ 8 (toLE_length 8 t)
  have h4 : (toLE 4 rp.length ++ (rp ++ dc)).take 4 = toLE 4 rp.length :=
    take_app_len _ _ 4 (toLE_length 4 _)
  have hd4 : (toLE 4 rp.length ++ (rp ++ dc)).drop 4 = rp ++ dc :=
    drop_app_len _ _ 4 (toLE_length 4 _)
  unfold bpVerifyThreshold
  rw [findMarker_clean_append _ _ hmc]
  dsimp only
  rw [if_neg (by rw [hTlen, hsc]; omega)]
  rw [take_at_marker, drop_after_marker]
  rw [if_neg (by rw [hPlen]; omega)]
  rw [h8, fromLE8 t ht]
  by_cases hq : q = t
  · subst hq
    rw [if_neg (by omega), if_pos rfl]
    rw [hd8]
    rw [if_neg (by simp only [List.length_append, toLE_length]; omega)]
    rw [h4, fromLE4 _ hrpl, hd4]
    rw [if_neg (by simp only [List.length_append]; omega)]
    rw [take_app_len rp dc rp.length rfl]
    by_cases hps : M.rpParses rp = true
    · rw [if_neg (by simp [hps])]
      rw [drop_app_len rp dc rp.length rfl]
      rw [if_neg (by omega), take_all_of_len dc 32 hdc, take_all_of_len sc 32 hsc]
      rw [if_neg (by simp [hps])]
    · have hps2 : M.rpParses rp = false := by
        revert hps
        cases M.rpParses rp <;> simp
      rw [if_pos (by simp [hps2]), if_pos (by simp [hps2])]
  · rw [if_pos (by omega), if_neg hq]

/-- Decoding and validating a freshly framed envelope of the expected
scheme yields it back. -/
theorem parse_roundtrip (scheme : Nat) (pf cm : Bytes)
    (hp : pf.length ≤ MAX_PROOF_PAYLOAD_BYTES)
    (hc : cm.length ≤ MAX_COMMITMENT_BYTES) :
    parse_and_validate_proof (Proof.new scheme pf cm).to_bytes scheme
      = .ok (Proof.new scheme pf cm) := by
  unfold parse_and_validate_proof
  rw [from_bytes_to_bytes (Proof.new scheme pf cm) hp hc]
  simp [Proof.new, PROOF_VERSION]

/-- Facade `verify_threshold` on a freshly produced threshold envelope. -/
theorem verify_threshold_env (M : CryptoModel) (q t : Nat) (rp dc sc : Bytes)
    (hsc : sc.length = 32)
    (hpay : (thrPayload t rp dc).length ≤ MAX_PROOF_PAYLOAD_BYTES) :
    verify_threshold M (Proof.new 3 (thrPayload t rp dc) sc).to_bytes q
      = .ok (bpVerifyThreshold M (thrPayload t rp dc ++ marker ++ sc) q) := by
  unfold verify_threshold
  rw [parse_roundtrip 3 (thrPayload t rp dc) sc hpay
    (by rw [hsc]; simp [MAX_COMMITMENT_BYTES])]
  dsimp only [Proof.new]
  unfold validate_standard_commitment
  rw [if_neg (by rw [hsc]; omega)]
  dsimp only [reconstruct_bulletproofs_proof]

theorem trySum64_123 : trySum64 0 [1, 2, 3] = .ok 6 := rfl

/-- C3 (amended): the scheme-3 envelope from `prove_threshold([1,2,3], 5)`
verifies with threshold 5; with threshold 6 verification returns `false`
because the queried threshold must equal the embedded one; and
`prove_threshold([1,2,3], 7)` fails with an InvalidInput-style
`ValueError`. -/
theorem threshold_s3_scenario (M : CryptoModel) (r : M.Scalar) (rp dc : Bytes)
    (hrp : M.rpProve "libzkp_threshold" 1 r = some (rp, dc))
    (hmc : markerClean (thrPayload 5 rp dc)) :
    ∃ env, prove_threshold M r [1, 2, 3] 5 = .ok env ∧
      verify_threshold M env 5 = .ok true ∧
      verify_threshold M env 6 = .ok false ∧
      prove_threshold M r [1, 2, 3] 7
        = .error ⟨.valueError, "threshold not met"⟩ := by
  obtain ⟨hcm, hparse, hverify, hlen⟩ := M.rp_spec _ _ _ _ _ hrp
  have hrp' : M.rpProve "libzkp_threshold" (6 - 5) r = some (rp, dc) := hrp
  have hdc : dc.length = 32 := by rw [hcm, M.compress_len]
  have hpay : (thrPayload 5 rp dc).length ≤ MAX_PROOF_PAYLOAD_BYTES := by
    rw [thrPayload_length, hdc]
    simp only [MAX_PROOF_PAYLOAD_BYTES]
    omega
  have hsc : (M.compress (M.commitN 6 r)).length = 32 := M.compress_len _
  refine ⟨(Proof.new 3 (thrPayload 5 rp dc) (M.compress (M.commitN 6 r))).to_bytes,
    prove_threshold_ok M r [1, 2, 3] 5 6 rp dc rfl trySum64_123 (by omega) hrp' hmc,
    ?_, ?_, rfl⟩
  · rw [verify_threshold_env M 5 5 rp dc _ hsc hpay]
    rw [bpVerifyThreshold_frame M 5 5 rp dc _ (by norm_num) hdc hsc (by omega) hmc]
    rw [if_pos rfl, if_neg (by simp [hparse]), M.decompress_compress]
    dsimp only
    have hlink : M.psub (M.commitN 6 r) (M.psmul (M.sFromNat 5) M.B)
        = M.commitN 1 r := by
      have := M.commit_sub_base 6 5 r (by omega)
      simpa [CryptoModel.commitN] using this
    have hcm2 : dc = M.compress (M.commitN 1 r) := hcm
    rw [hlink, ← hcm2]
    rw [if_neg (by simp)]
    rw [hverify]
  · rw [verify_threshold_env M 6 5 rp dc _ hsc hpay]
    rw [bpVerifyThreshold_frame M 5 6 rp dc _ (by norm_num) hdc hsc (by omega) hmc]
    rw [if_neg (by omega)]

/-- A zero blinding in the computable model. -/
def trivZero : TrivialModel.Scalar := (0 : Int)

/-- A zero randomness stream in the computable model. -/
def trivRnd : Nat → Nat → TrivialModel.Scalar := fun _ _ => (0 : Int)

/-- C3 counterexample: at the computable model, the envelope from
`prove_threshold([1,2,3], 5)` does NOT verify with threshold 6 — the
embedded threshold 5 fails the equality check against the queried 6. -/
theorem threshold_s3_counterexample :
    (prove_threshold TrivialModel trivZero [1, 2, 3] 5).isOk = true ∧
    verify_threshold TrivialModel
      ((prove_threshold TrivialModel trivZero [1, 2, 3] 5).toOption.getD []) 6
      = .ok false := by
  constructor
  · rfl
  · rfl

/-- C3 witness: the scenario theorem instantiated at the computable
model. -/
theorem threshold_s3_scenario_witness :
    (TrivialModel.rpProve "libzkp_threshold" 1 trivZero
        = some (trivCompress (1, 0), trivCompress (1, 0))
      ∧ markerClean (thrPayload 5 (trivCompress (1, 0)) (trivCompress (1, 0)))) ∧
    (∃ env, prove_threshold TrivialModel trivZero [1, 2, 3] 5 = .ok env ∧
      verify_threshold TrivialModel env 5 = .ok true ∧
      verify_threshold TrivialModel env 6 = .ok false ∧
      prove_threshold TrivialModel trivZero [1, 2, 3] 7
        = .error ⟨.valueError, "threshold not met"⟩) :=
  ⟨⟨rfl, by decide⟩,
    threshold_s3_scenario TrivialModel trivZero _ _ rfl (by decide)⟩

/-- C5: decoding recovers exactly the four fields of any envelope
respecting the size limits, and removing the final byte makes decoding
fail. -/
theorem envelope_roundtrip (v s : Nat) (p c : Bytes)
    (_hv : v < 256) (_hs : s < 256)
    (hp : p.length ≤ MAX_PROOF_PAYLOAD_BYTES)
    (hc : c.length ≤ MAX_COMMITMENT_BYTES)
    (_htot : 10 + p.length + c.length ≤ MAX_PROOF_TOTAL_BYTES) :
    Proof.from_bytes (Proof.to_bytes ⟨v, s, p, c⟩) = some ⟨v, s, p, c⟩ ∧
    Proof.from_bytes (Proof.to_bytes ⟨v, s, p, c⟩).dropLast = none :=
  ⟨from_bytes_to_bytes ⟨v, s, p, c⟩ hp hc, from_bytes_truncated ⟨v, s, p, c⟩ hp hc⟩

/-- C5 witness: the round-trip and truncation facts at a concrete
envelope. -/
theorem envelope_roundtrip_witness :
    (1 < 256 ∧ 3 < 256 ∧ ([5, 6] : Bytes).length ≤ MAX_PROOF_PAYLOAD_BYTES
      ∧ ([7] : Bytes).length ≤ MAX_COMMITMENT_BYTES
      ∧ 10 + ([5, 6] : Bytes).length + ([7] : Bytes).length ≤ MAX_PROOF_TOTAL_BYTES) ∧
    (Proof.from_bytes (Proof.to_bytes ⟨1, 3, [5, 6], [7]⟩) = some ⟨1, 3, [5, 6], [7]⟩ ∧
      Proof.from_bytes (Proof.to_bytes ⟨1, 3, [5, 6], [7]⟩).dropLast = none) :=
  ⟨by decide,
    envelope_roundtrip 1 3 [5, 6] [7] (by decide) (by decide) (by decide)
      (by decide) (by decide)⟩

/-- `trySum64` never wraps: success returns the mathematical sum. -/
theorem trySum64_ok_val (vals : List Nat) (acc u : Nat)
    (h : trySum64 acc vals = .ok u) : u = acc + vals.sum := by
  induction vals generalizing acc with
  | nil =>
    simp only [trySum64] at h
    cases h
    simp
  | cons v t ih =>
    simp only [trySum64, checkedAdd64] at h
    by_cases hlt : acc + v < 2 ^ 64
    · rw [if_pos hlt] at h
      have := ih (acc + v) h
      simp [this, List.sum_cons]
      omega
    · rw [if_neg hlt] at h
      cases h

/-- `trySum64` detects any `u64` overflow of the total. -/
theorem trySum64_overflow (vals : List Nat) (acc : Nat) (hacc : acc < 2 ^ 64)
    (hb : ∀ v ∈ vals, v < 2 ^ 64) (h : 2 ^ 64 ≤ acc + vals.sum) :
    trySum64 acc vals
      = .error (.invalidInput "integer overflow in sum calculation") := by
  induction vals generalizing acc with
  | nil =>
    simp only [List.sum_nil] at h
    omega
  | cons v t ih =>
    simp only [trySum64, checkedAdd64]
    by_cases hlt : acc + v < 2 ^ 64
    · rw [if_pos hlt]
      exact ih (acc + v) hlt (fun w hw => hb w (by simp [hw]))
        (by simp only [List.sum_cons] at h; omega)
    · rw [if_neg hlt]

/-- C7 (amended): a `u64` overflow of the threshold sum surfaces as an
`InvalidInput` error — a Python `ValueError`, not the `IntegerOverflow`
kind — both in `validate_threshold_params` and in the prover, and a
successful validation never wraps: it returns the mathematical sum. -/
theorem threshold_overflow_amended (vals : List Nat) (t : Nat)
    (hb : ∀ v ∈ vals, v < 2 ^ 64) :
    (2 ^ 64 ≤ vals.sum →
      validate_threshold_params vals t
        = .error (.invalidInput "integer overflow in sum calculation") ∧
      ∀ (M : CryptoModel) (r : M.Scalar),
        prove_threshold M r vals t
          = .error ⟨.valueError, "integer overflow in sum calculation"⟩) ∧
    (∀ s, validate_threshold_params vals t = .ok s → s = vals.sum) := by
  constructor
  · intro hov
    have hne : vals.isEmpty = false := by
      cases vals with
      | nil => simp at hov
      | cons a t => rfl
    have hsum := trySum64_overflow vals 0 (by norm_num) hb (by omega)
    constructor
    · unfold validate_threshold_params
      rw [if_neg (by simp [hne]), hsum]
    · intro M r
      unfold prove_threshold bpProveThreshold
      rw [if_neg (by simp [hne]), hsum]
  · intro s hs
    unfold validate_threshold_params at hs
    by_cases hne : vals.isEmpty
    · rw [if_pos hne] at hs
      cases hs
    · rw [if_neg hne] at hs
      cases hsum : trySum64 0 vals with
      | error e => rw [hsum] at hs; cases hs
      | ok u =>
        rw [hsum] at hs
        dsimp only at hs
        by_cases hlt : u < t
        · rw [if_pos hlt] at hs; cases hs
        · rw [if_neg hlt] at hs
          have hus : u = s := by injection hs
          have := trySum64_ok_val vals 0 u hsum
          omega

/-- C7 counterexample: an overflowing sum yields the `InvalidInput` error
kind (Python `ValueError`), not `IntegerOverflow` — refuting the claimed
error kind while confirming that nothing wraps. -/
theorem threshold_overflow_counterexample :
    validate_threshold_params [2 ^ 63, 2 ^ 63] 0
      = .error (.invalidInput "integer overflow in sum calculation") ∧
    prove_threshold TrivialModel trivZero [2 ^ 63, 2 ^ 63] 0
      = .error ⟨.valueError, "integer overflow in sum calculation"⟩ :=
  ⟨rfl, rfl⟩

/-- C7 witness: the amended theorem applied at an overflowing input. -/
theorem threshold_overflow_amended_witness :
    (∀ v ∈ ([2 ^ 63, 2 ^ 63] : List Nat), v < 2 ^ 64) ∧
    ((2 ^ 64 ≤ ([2 ^ 63, 2 ^ 63] : List Nat).sum →
      validate_threshold_params [2 ^ 63, 2 ^ 63] 0
        = .error (.invalidInput "integer overflow in sum calculation") ∧
      ∀ (M : CryptoModel) (r : M.Scalar),
        prove_threshold M r [2 ^ 63, 2 ^ 63] 0
          = .error ⟨.valueError, "integer overflow in sum calculation"⟩) ∧
    (∀ s, validate_threshold_params [2 ^ 63, 2 ^ 63] 0 = .ok s
      → s = ([2 ^ 63, 2 ^ 63] : List Nat).sum)) :=
  ⟨by decide, threshold_overflow_amended [2 ^ 63, 2 ^ 63] 0 (by decide)⟩

/-- C10: `clear_batch` succeeds for every id, including ids never created
or already removed, while `process_batch` reports an error for a missing
batch. -/
theorem clear_batch_always_ok (st : BatchState) (id : Nat) (M : CryptoModel)
    (rnd : Nat → Nat → M.Scalar) :
    (clear_batch st id).2 = .ok () ∧
    (registryGet id st.registry = none →
      (process_batch M rnd st id).2 = .error ⟨.valueError, "Invalid batch ID"⟩) := by
  constructor
  · rfl
  · intro h
    unfold process_batch
    rw [h]
    rfl

/-- C6: `prove_improvement(1, 8)` succeeds, its envelope verifies against
`old = 1`, and is rejected against `old = 2` (the commitment records
`diff = 7, new = 8`, and `2 + 7 = 9 ≠ 8`). -/
theorem improvement_s5_scenario (M : CryptoModel) :
    (prove_improvement M 1 8).isOk = true ∧
    (∀ env, prove_improvement M 1 8 = .ok env →
      verify_improvement M env 1 = .ok true ∧
      verify_improvement M env 2 = .ok false) := by
  cases hraw : M.starkProveRaw 1 8 with
  | none =>
    exact absurd (M.stark_some 1 8 (by omega) (by norm_num)) (by rw [hraw]; simp)
  | some pf =>
    obtain ⟨hne, hlen, hver⟩ := M.stark_spec 1 8 pf hraw
    have hsp : starkProve M (toLE 8 1 ++ toLE 8 8) = pf := by
      rw [show starkProve M (toLE 8 1 ++ toLE 8 8)
        = (match M.starkProveRaw 1 8 with | none => [] | some pf => pf) from rfl, hraw]
    have hpe : prove_improvement M 1 8
        = .ok (Proof.new 5 pf (toLE 8 7 ++ toLE 8 8)).to_bytes := by
      unfold prove_improvement
      rw [show validate_improvement_params 1 8 = Except.ok 7 from rfl]
      dsimp only
      rw [hsp]
      rw [if_neg (by simp [List.isEmpty_iff, hne])]
      rw [show commit_improvement 1 8 = Except.ok (toLE 8 7 ++ toLE 8 8) from rfl]
    refine ⟨by rw [hpe]; rfl, ?_⟩
    intro env henv
    rw [hpe] at henv
    have henv2 : env = (Proof.new 5 pf (toLE 8 7 ++ toLE 8 8)).to_bytes := by
      injection henv with h
      exact h.symm
    subst henv2
    have hcm : (toLE 8 7 ++ toLE 8 8).length ≤ MAX_COMMITMENT_BYTES := by
      simp [toLE_length, MAX_COMMITMENT_BYTES]
    constructor
    · unfold verify_improvement
      rw [parse_roundtrip 5 pf (toLE 8 7 ++ toLE 8 8) hlen hcm]
      dsimp only [Proof.new]
      rw [show validate_improvement_commitment (toLE 8 7 ++ toLE 8 8) 1
        = Except.ok 8 from rfl]
      dsimp only
      rw [show starkVerify M pf (toLE 8 1 ++ toLE 8 8)
        = M.starkVerifyRaw pf 1 8 from rfl]
      rw [hver]
    · unfold verify_improvement
      rw [parse_roundtrip 5 pf (toLE 8 7 ++ toLE 8 8) hlen hcm]
      dsimp only [Proof.new]
      rw [show validate_improvement_commitment (toLE 8 7 ++ toLE 8 8) 2
        = Except.error (.invalidProofFormat "inconsistent improvement values") from rfl]

/-- C6 witness: the scenario at the computable model, with the concrete
envelope named explicitly. -/
theorem improvement_s5_scenario_witness :
    prove_improvement TrivialModel 1 8
      = .ok (Proof.new 5 (toLE 8 1 ++ toLE 8 8 ++ [1]) (toLE 8 7 ++ toLE 8 8)).to_bytes ∧
    (verify_improvement TrivialModel
        (Proof.new 5 (toLE 8 1 ++ toLE 8 8 ++ [1]) (toLE 8 7 ++ toLE 8 8)).to_bytes 1
      = .ok true ∧
      verify_improvement TrivialModel
        (Proof.new 5 (toLE 8 1 ++ toLE 8 8 ++ [1]) (toLE 8 7 ++ toLE 8 8)).to_bytes 2
      = .ok false) :=
  ⟨rfl, (improvement_s5_scenario TrivialModel).2 _ rfl⟩

theorem bpConsLoop_stop (M : CryptoModel) (rs : Nat → M.Scalar) (data : List Nat)
    (i : Nat) (h : ¬ i < data.length) : bpConsLoop M rs data i = .ok [] := by
  unfold bpConsLoop
  rw [show data.length - i = 0 by omega]
  rfl

theorem bpConsLoop_step_ok (M : CryptoModel) (rs : Nat → M.Scalar)
    (data : List Nat) (i : Nat) (pc : Bytes × Bytes) (rest : List (Bytes × Bytes))
    (h : i < data.length)
    (hrp : M.rpProve "libzkp_consistency" (data.getD i 0 - data.getD (i - 1) 0)
      (M.ssub (rs i) (rs (i - 1))) = some pc)
    (hrec : bpConsLoop M rs data (i + 1) = .ok rest) :
    bpConsLoop M rs data i = .ok (pc :: rest) := by
  unfold bpConsLoop at hrec ⊢
  rw [show data.length - i = (data.length - (i + 1)) + 1 by omega]
  rw [bpConsLoopGo, hrp, hrec]

/-- Each chunk of a sufficiently long reader is full, so the flattened
chunks have exactly `n * k` bytes. -/
theorem takeChunks_flatten_length (k : Nat) (n : Nat) (l : Bytes)
    (h : n * k ≤ l.length) : ((takeChunks k l n).flatten).length = n * k := by
  induction n generalizing l with
  | zero => simp [takeChunks]
  | succ n ih =>
    rw [Nat.succ_mul] at h ⊢
    simp only [takeChunks, List.flatten_cons, List.length_append, List.length_take]
    have hk : k ≤ l.length := by omega
    rw [ih (l.drop k) (by rw [List.length_drop]; omega)]
    omega

/-- `prove_consistency([1,2,2,3])` succeeds and frames the first value
commitment (only) as the envelope commitment, the backend commitment
block being truncated to 32 bytes by `extract_bulletproofs_components`. -/
theorem prove_consistency_1223 (M : CryptoModel) (rs : Nat → M.Scalar)
    (p1 d1 p2 d2 p3 d3 : Bytes)
    (h1 : M.rpProve "libzkp_consistency" 1 (M.ssub (rs 1) (rs 0)) = some (p1, d1))
    (h2 : M.rpProve "libzkp_consistency" 0 (M.ssub (rs 2) (rs 1)) = some (p2, d2))
    (h3 : M.rpProve "libzkp_consistency" 1 (M.ssub (rs 3) (rs 2)) = some (p3, d3))
    (hmc : markerClean (consPayload [1, 2, 2, 3] (consCms M rs [1, 2, 2, 3])
      [(p1, d1), (p2, d2), (p3, d3)])) :
    prove_consistency M rs [1, 2, 2, 3]
      = .ok (Proof.new 6
          (consPayload [1, 2, 2, 3] (consCms M rs [1, 2, 2, 3])
            [(p1, d1), (p2, d2), (p3, d3)])
          (M.compress (M.commitN 1 (rs 0)))).to_bytes := by
  have l4 := bpConsLoop_stop M rs [1, 2, 2, 3] 4 (by norm_num)
  have l3 := bpConsLoop_step_ok M rs [1, 2, 2, 3] 3 (p3, d3) [] (by norm_num) h3 l4
  have l2 := bpConsLoop_step_ok M rs [1, 2, 2, 3] 2 (p2, d2) [(p3, d3)]
    (by norm_num) h2 l3
  have l1 := bpConsLoop_step_ok M rs [1, 2, 2, 3] 1 (p1, d1) [(p2, d2), (p3, d3)]
    (by norm_num) h1 l2
  have hcms : consCms M rs [1, 2, 2, 3]
      = [M.compress (M.commitN 1 (rs 0)), M.compress (M.commitN 2 (rs 1)),
         M.compress (M.commitN 2 (rs 2)), M.compress (M.commitN 3 (rs 3))] := rfl
  have hflat : (consCms M rs [1, 2, 2, 3]).flatten
      = M.compress (M.commitN 1 (rs 0))
        ++ (M.compress (M.commitN 2 (rs 1))
          ++ (M.compress (M.commitN 2 (rs 2))
            ++ (M.compress (M.commitN 3 (rs 3)) ++ []))) := rfl
  unfold prove_consistency bpProveConsistency
  rw [if_neg (by simp), if_neg (by decide)]
  dsimp only
  rw [l1]
  dsimp only
  rw [extract_clean _ _ hmc
    (by rw [hflat]; simp only [List.length_append, M.compress_len]; omega)]
  rw [hflat, take_app_len _ _ 32 (M.compress_len _)]
  rfl

/-- `verify_consistency` rejects the facade envelope of
`prove_consistency([1,2,2,3])`: the 32-byte envelope commitment cannot
equal the 128-byte concatenation of the four value commitments that the
backend recomputes. -/
theorem verify_consistency_1223_false (M : CryptoModel) (rs : Nat → M.Scalar)
    (p1 d1 p2 d2 p3 d3 : Bytes)
    (h1 : M.rpProve "libzkp_consistency" 1 (M.ssub (rs 1) (rs 0)) = some (p1, d1))
    (h2 : M.rpProve "libzkp_consistency" 0 (M.ssub (rs 2) (rs 1)) = some (p2, d2))
    (h3 : M.rpProve "libzkp_consistency" 1 (M.ssub (rs 3) (rs 2)) = some (p3, d3))
    (hmc : markerClean (consPayload [1, 2, 2, 3] (consCms M rs [1, 2, 2, 3])
      [(p1, d1), (p2, d2), (p3, d3)])) :
    verify_consistency M (Proof.new 6
        (consPayload [1, 2, 2, 3] (consCms M rs [1, 2, 2, 3])
          [(p1, d1), (p2, d2), (p3, d3)])
        (M.compress (M.commitN 1 (rs 0)))).to_bytes = .ok false := by
  obtain ⟨-, -, -, hl1⟩ := M.rp_spec _ _ _ _ _ h1
  obtain ⟨hd2, -, -, hl2⟩ := M.rp_spec _ _ _ _ _ h2
  obtain ⟨hd3, -, -, hl3⟩ := M.rp_spec _ _ _ _ _ h3
  obtain ⟨hd1, -, -, -⟩ := M.rp_spec _ _ _ _ _ h1
  have hflat : (consCms M rs [1, 2, 2, 3]).flatten
      = M.compress (M.commitN 1 (rs 0))
        ++ (M.compress (M.commitN 2 (rs 1))
          ++ (M.compress (M.commitN 2 (rs 2))
            ++ (M.compress (M.commitN 3 (rs 3)) ++ []))) := rfl
  have hP : consPayload [1, 2, 2, 3] (consCms M rs [1, 2, 2, 3])
        [(p1, d1), (p2, d2), (p3, d3)]
      = toLE 4 4 ++ ((consCms M rs [1, 2, 2, 3]).flatten
        ++ ((toLE 4 p1.length ++ p1 ++ (toLE 4 p2.length ++ p2
            ++ (toLE 4 p3.length ++ p3 ++ [])))
          ++ (d1 ++ (d2 ++ (d3 ++ []))))) := by
    simp [consPayload, List.append_assoc]
  have hflatlen : (consCms M rs [1, 2, 2, 3]).flatten.length = 128 := by
    rw [hflat]
    simp only [List.length_append, M.compress_len, List.length_nil]
  have hPlen : (consPayload [1, 2, 2, 3] (consCms M rs [1, 2, 2, 3])
      [(p1, d1), (p2, d2), (p3, d3)]).length ≤ MAX_PROOF_PAYLOAD_BYTES := by
    rw [hP]
    simp only [List.length_append, toLE_length, List.length_nil, hflatlen,
      hd1, hd2, hd3, M.compress_len, MAX_PROOF_PAYLOAD_BYTES]
    omega
  unfold verify_consistency
  rw [parse_roundtrip 6 _ _ hPlen
    (by rw [M.compress_len]; simp [MAX_COMMITMENT_BYTES])]
  dsimp only [Proof.new, reconstruct_bulletproofs_proof]
  unfold bpVerifyConsistency
  rw [findMarker_clean_append _ _ hmc]
  dsimp only
  rw [take_at_marker, drop_after_marker]
  rw [if_neg (by rw [hP]; simp only [List.length_append, toLE_length]; omega)]
  rw [hP, take_app_len _ _ 4 (toLE_length 4 _), fromLE4 4 (by norm_num),
    drop_app_len _ _ 4 (toLE_length 4 _)]
  rw [if_neg (by norm_num)]
  have hrestlen : 4 * 32 ≤ ((consCms M rs [1, 2, 2, 3]).flatten
      ++ ((toLE 4 p1.length ++ p1 ++ (toLE 4 p2.length ++ p2
          ++ (toLE 4 p3.length ++ p3 ++ [])))
        ++ (d1 ++ (d2 ++ (d3 ++ []))))).length := by
    simp only [List.length_append, hflatlen]
    omega
  rw [if_neg (by omega)]
  rw [if_pos]
  intro hcontra
  have hlen1 : (M.compress (M.commitN 1 (rs 0))).length = 32 := M.compress_len _
  have hlen2 := takeChunks_flatten_length 32 4 _ hrestlen
  rw [← hcontra, hlen1] at hlen2
  omega

/-- C1: on the code as written, `prove_consistency([1,2,2,3])` succeeds
but `verify_consistency` of the returned envelope yields `false` — the
facade keeps only the first 32 commitment bytes while the backend compares
the full 128-byte block — and `prove_consistency([1,2,1])` fails with an
InvalidInput-style `ValueError`. -/
theorem consistency_s6_code_behavior (M : CryptoModel) (rs : Nat → M.Scalar)
    (p1 d1 p2 d2 p3 d3 : Bytes)
    (h1 : M.rpProve "libzkp_consistency" 1 (M.ssub (rs 1) (rs 0)) = some (p1, d1))
    (h2 : M.rpProve "libzkp_consistency" 0 (M.ssub (rs 2) (rs 1)) = some (p2, d2))
    (h3 : M.rpProve "libzkp_consistency" 1 (M.ssub (rs 3) (rs 2)) = some (p3, d3))
    (hmc : markerClean (consPayload [1, 2, 2, 3] (consCms M rs [1, 2, 2, 3])
      [(p1, d1), (p2, d2), (p3, d3)])) :
    (∃ env, prove_consistency M rs [1, 2, 2, 3] = .ok env ∧
      verify_consistency M env = .ok false) ∧
    prove_consistency M rs [1, 2, 1]
      = .error ⟨.valueError, "data inconsistent"⟩ :=
  ⟨⟨_, prove_consistency_1223 M rs p1 d1 p2 d2 p3 d3 h1 h2 h3 hmc,
    verify_consistency_1223_false M rs p1 d1 p2 d2 p3 d3 h1 h2 h3 hmc⟩, rfl⟩

set_option maxRecDepth 100000 in
/-- C1 witness: the behaviour at the computable model. -/
theorem consistency_s6_code_behavior_witness :
    (TrivialModel.rpProve "libzkp_consistency" 1
        (TrivialModel.ssub (trivRnd 5 1) (trivRnd 5 0))
        = some (trivCompress (1, 0), trivCompress (1, 0))
      ∧ markerClean (consPayload [1, 2, 2, 3]
          (consCms TrivialModel (trivRnd 5) [1, 2, 2, 3])
          [(trivCompress (1, 0), trivCompress (1, 0)),
            (trivCompress (0, 0), trivCompress (0, 0)),
            (trivCompress (1, 0), trivCompress (1, 0))])) ∧
    ((∃ env, prove_consistency TrivialModel (trivRnd 5) [1, 2, 2, 3] = .ok env ∧
      verify_consistency TrivialModel env = .ok false) ∧
    prove_consistency TrivialModel (trivRnd 5) [1, 2, 1]
      = .error ⟨.valueError, "data inconsistent"⟩) :=
  ⟨⟨rfl, by decide⟩,
    consistency_s6_code_behavior TrivialModel (trivRnd 5) _ _ _ _ _ _
      rfl rfl rfl (by decide)⟩

/-- Facade `prove_range` success, producing the scheme-1 envelope. -/
theorem prove_range_ok (M : CryptoModel) (r : M.Scalar) (value mn mx : Nat)
    (hlo : mn ≤ value) (hhi : value ≤ mx) (rp1 dm rp2 dM : Bytes)
    (hmin : M.rpProve "libzkp_range_min" (value - mn) r = some (rp1, dm))
    (hmax : M.rpProve "libzkp_range_max" (mx - value) (M.sneg r) = some (rp2, dM))
    (hmc : markerClean (rangePayload mn mx rp1 rp2 dm dM)) :
    prove_range M r value mn mx
      = .ok (Proof.new 1 (rangePayload mn mx rp1 rp2 dm dM)
          (M.compress (M.commitN value r))).to_bytes := by
  unfold prove_range
  rw [show validate_range_params value mn mx = .ok () from by
    unfold validate_range_params
    rw [if_neg (by omega), if_neg (by omega)]]
  dsimp only
  unfold bpProveRangeWithBounds
  rw [if_neg (by omega)]
  dsimp only
  rw [hmin]
  dsimp only
  rw [hmax]
  dsimp only
  rw [extract_clean _ _ hmc (by rw [M.compress_len])]
  rw [take_all_of_len _ _ (M.compress_len _)]
  rfl

/-- Facade `prove_equality` success, producing the scheme-2 envelope. -/
theorem prove_equality_ok (M : CryptoModel) (a : Nat) (ha : a < 2 ^ 64)
    (pf : Bytes) (hpe : M.grothProveEq a a (M.sha (toLE 8 a)) = some pf) :
    prove_equality M a a = .ok (Proof.new 2 pf (M.sha (toLE 8 a))).to_bytes := by
  obtain ⟨hne, -, -⟩ := M.gEq_spec _ _ _ _ hpe
  unfold prove_equality
  rw [if_neg (by omega)]
  dsimp only
  have e1 : (toLE 8 a ++ toLE 8 a ++ M.sha (toLE 8 a)).take 8 = toLE 8 a := by
    rw [List.append_assoc, take_app_len _ _ 8 (toLE_length 8 a)]
  have e2 : ((toLE 8 a ++ toLE 8 a ++ M.sha (toLE 8 a)).drop 8).take 8 = toLE 8 a := by
    rw [List.append_assoc, drop_app_len _ _ 8 (toLE_length 8 a),
      take_app_len _ _ 8 (toLE_length 8 a)]
  have e3 : (toLE 8 a ++ toLE 8 a ++ M.sha (toLE 8 a)).drop 16 = M.sha (toLE 8 a) := by
    rw [show (16 : Nat) = 8 + 8 from rfl, ← List.drop_drop, List.append_assoc,
      drop_app_len _ _ 8 (toLE_length 8 a), drop_app_len _ _ 8 (toLE_length 8 a)]
  have hdata : snarkProve M (toLE 8 a ++ toLE 8 a ++ M.sha (toLE 8 a)) = pf := by
    unfold snarkProve
    rw [if_neg (by
      simp only [List.length_append, toLE_length, M.sha_len]
      omega)]
    rw [e1, e2, e3, fromLE8 a ha]
    unfold snarkProveEqualityZk
    rw [if_neg (by omega), hpe]
  rw [hdata, if_neg (by simp [List.isEmpty_iff, hne])]

theorem findIdx_some_of_mem (v : Nat) (set : List Nat) (hv : v ∈ set) :
    ∃ i, set.findIdx? (fun x => x == v) = some i := by
  cases hidx : set.findIdx? (fun x => x == v) with
  | some i => exact ⟨i, rfl⟩
  | none =>
    rw [List.findIdx?_eq_none_iff] at hidx
    have := hidx v hv
    simp at this

/-- Facade `prove_membership` success, producing the scheme-4 envelope
with the set embedded length-prefixed ahead of the Groth16 bytes. -/
theorem prove_membership_ok (M : CryptoModel) (v : Nat) (set : List Nat)
    (pf : Bytes) (hv : v ∈ set) (hsz : set.length ≤ 64)
    (hpm : M.grothProveMem v set (M.sha (toLE 8 v)) = some pf) :
    prove_membership M v set
      = .ok (Proof.new 4 (toLE 4 set.length ++ (set.map (toLE 8)).flatten ++ pf)
          (M.sha (toLE 8 v))).to_bytes := by
  obtain ⟨hne, -, -⟩ := M.gMem_spec _ _ _ _ hpm
  have hsetne : set ≠ [] := by
    intro h
    subst h
    simp at hv
  obtain ⟨pos, hidx⟩ := findIdx_some_of_mem v set hv
  unfold prove_membership
  rw [if_neg (by simp [List.isEmpty_iff, hsetne])]
  dsimp only
  unfold commit_value
  rw [if_neg (by rw [M.sha_len]; omega)]
  have hzk : snarkProveMembershipZk M v set (M.sha (toLE 8 v)) = pf := by
    unfold snarkProveMembershipZk
    rw [if_neg (by simp [List.isEmpty_iff, hsetne, MAX_SET_SIZE]; omega), hidx, hpm]
  rw [hzk, if_neg (by simp [List.isEmpty_iff, hne])]

/-- Facade `prove_improvement(1, 8)` success given the raw STARK proof. -/
theorem prove_improvement_1_8 (M : CryptoModel) (pf : Bytes)
    (hraw : M.starkProveRaw 1 8 = some pf) :
    prove_improvement M 1 8 = .ok (Proof.new 5 pf (toLE 8 7 ++ toLE 8 8)).to_bytes := by
  obtain ⟨hne, -, -⟩ := M.stark_spec 1 8 pf hraw
  have hsp : starkProve M (toLE 8 1 ++ toLE 8 8) = pf := by
    rw [show starkProve M (toLE 8 1 ++ toLE 8 8)
      = (match M.starkProveRaw 1 8 with | none => [] | some pf => pf) from rfl, hraw]
  unfold prove_improvement
  rw [show validate_improvement_params 1 8 = Except.ok 7 from rfl]
  dsimp only
  rw [hsp]
  rw [if_neg (by simp [List.isEmpty_iff, hne])]
  rw [show commit_improvement 1 8 = Except.ok (toLE 8 7 ++ toLE 8 8) from rfl]

theorem verify_range_isOk (M : CryptoModel) (bytes : Bytes) (mn mx : Nat) :
    (verify_range M bytes mn mx).isOk = true := by
  unfold verify_range
  repeat first | rfl | split | dsimp only

theorem verify_equality_isOk (M : CryptoModel) (bytes : Bytes) (v1 v2 : Nat) :
    (verify_equality M bytes v1 v2).isOk = true := by
  unfold verify_equality
  repeat first | rfl | split | dsimp only

theorem verify_threshold_isOk (M : CryptoModel) (bytes : Bytes) (t : Nat) :
    (verify_threshold M bytes t).isOk = true := by
  unfold verify_threshold
  repeat first | rfl | split | dsimp only

theorem verify_membership_isOk (M : CryptoModel) (bytes : Bytes) (set : List Nat) :
    (verify_membership M bytes set).isOk = true := by
  unfold verify_membership
  repeat first | rfl | split | dsimp only

theorem verify_improvement_isOk (M : CryptoModel) (bytes : Bytes) (old : Nat) :
    (verify_improvement M bytes old).isOk = true := by
  unfold verify_improvement
  repeat first | rfl | split | dsimp only

theorem verify_consistency_isOk (M : CryptoModel) (bytes : Bytes) :
    (verify_consistency M bytes).isOk = true := by
  unfold verify_consistency
  repeat first | rfl | split | dsimp only

/-- Every error of the composite proof-reading loop is an
`InvalidProofFormat`. -/
theorem compositeReadProofs_error_shape (data : Bytes) (n off : Nat)
    (e : ZkpError) (h : compositeReadProofs data off n = .error e) :
    ∃ m, e = .invalidProofFormat m := by
  induction n generalizing off with
  | zero => simp [compositeReadProofs] at h
  | succ n ih =>
    simp only [compositeReadProofs] at h
    split at h
    · exact ⟨_, (by injection h with h2; exact h2.symm)⟩
    · split at h
      · exact ⟨_, (by injection h with h2; exact h2.symm)⟩
      · split at h
        · exact ⟨_, (by injection h with h2; exact h2.symm)⟩
        · split at h
          · cases h
          · rename_i heq
            injection h with h2
            subst h2
            exact ih _ heq

/-- Every error of the composite metadata-reading loop is an
`InvalidProofFormat`. -/
theorem compositeReadMeta_error_shape (data : Bytes) (n : Nat) (off : Nat)
    (acc : List (Bytes × Bytes)) (e : ZkpError)
    (h : compositeReadMeta data off n acc = .error e) :
    ∃ m, e = .invalidProofFormat m := by
  induction n generalizing off acc with
  | zero => simp [compositeReadMeta] at h
  | succ n ih =>
    simp only [compositeReadMeta] at h
    split at h
    · exact ⟨_, (by injection h with h2; exact h2.symm)⟩
    · split at h
      · exact ⟨_, (by injection h with h2; exact h2.symm)⟩
      · split at h
        · exact ⟨_, (by injection h with h2; exact h2.symm)⟩
        · exact ih _ _ h

/-- Every decode error of `CompositeProof::from_bytes` is an
`InvalidProofFormat`. -/
theorem composite_from_bytes_error_shape (H : Bytes → Bytes) (data : Bytes)
    (e : ZkpError) (h : CompositeProof.from_bytes H data = .error e) :
    ∃ m, e = .invalidProofFormat m := by
  unfold CompositeProof.from_bytes at h
  split at h
  · exact ⟨_, (by injection h with h2; exact h2.symm)⟩
  · split at h
    · exact ⟨_, (by injection h with h2; exact h2.symm)⟩
    · dsimp only at h
      split at h
      · exact ⟨_, (by injection h with h2; exact h2.symm)⟩
      · split at h
        · rename_i heq
          injection h with h2
          subst h2
          exact compositeReadProofs_error_shape _ _ _ _ heq
        · split at h
          · rename_i heq
            injection h with h2
            subst h2
            exact compositeReadMeta_error_shape _ _ _ _ _ heq
          · split at h
            · exact ⟨_, (by injection h with h2; exact h2.symm)⟩
            · split at h
              · exact ⟨_, (by injection h with h2; exact h2.symm)⟩
              · cases h

/-- C2 (amended): every byte string given to any of the six predicate
verifiers produces an `Ok` boolean — they never raise; composite-proof
verification either returns a boolean or raises a typed
`InvalidProofFormat` error (a Python `TypeError`) on malformed input
instead of returning `false`. -/
theorem verifiers_totality_amended (M : CryptoModel) (H : Bytes → Bytes)
    (bytes : Bytes) (mn mx t old v1 v2 : Nat) (set : List Nat) :
    (verify_range M bytes mn mx).isOk = true ∧
    (verify_equality M bytes v1 v2).isOk = true ∧
    (verify_threshold M bytes t).isOk = true ∧
    (verify_membership M bytes set).isOk = true ∧
    (verify_improvement M bytes old).isOk = true ∧
    (verify_consistency M bytes).isOk = true ∧
    ((verify_composite_proof H bytes).isOk = true ∨
      ∃ m, verify_composite_proof H bytes = .error ⟨.typeError, m⟩) := by
  refine ⟨verify_range_isOk M bytes mn mx, verify_equality_isOk M bytes v1 v2,
    verify_threshold_isOk M bytes t, verify_membership_isOk M bytes set,
    verify_improvement_isOk M bytes old, verify_consistency_isOk M bytes, ?_⟩
  unfold verify_composite_proof
  cases hfb : CompositeProof.from_bytes H bytes with
  | ok cp => left; rfl
  | error e =>
    right
    obtain ⟨m, hm⟩ := composite_from_bytes_error_shape H bytes e hfb
    exact ⟨m, by rw [hm]; rfl⟩

/-- C2 counterexample: composite-proof verification raises a typed error
(the `InvalidProofFormat` to `TypeError` mapping) on the empty byte
string rather than returning `false`. -/
theorem verify_composite_raises_counterexample :
    verify_composite_proof (fun l => l) []
      = .error ⟨.typeError, "composite proof too short"⟩ := rfl

theorem foldl_append_to_bytes (ps : List Proof) (init : Bytes) :
    ps.foldl (fun acc p => acc ++ p.to_bytes) init
      = init ++ (ps.map Proof.to_bytes).flatten := by
  induction ps generalizing init with
  | nil => simp
  | cons p t ih =>
    simp only [List.foldl_cons, List.map_cons, List.flatten_cons]
    rw [ih, List.append_assoc]

/-- C8: the integrity digest of a freshly composed proof is SHA-256 of the
literal concatenation of the domain tag `"COMPOSITE_PROOF:"`, the proof
count as u32 LE and each envelope's serialized bytes; `verify_integrity`
holds, and adding metadata changes neither the digest nor the integrity
result. -/
theorem composite_digest_metadata (H : Bytes → Bytes) (ps : List Proof)
    (hne : ps ≠ []) :
    ∃ cp, CompositeProof.new H ps = .ok cp ∧
      cp.composition_hash
        = H ([67, 79, 77, 80, 79, 83, 73, 84, 69, 95, 80, 82, 79, 79, 70, 58]
            ++ toLE 4 ps.length ++ (ps.map Proof.to_bytes).flatten) ∧
      cp.verify_integrity H = true ∧
      ∀ k v, (cp.add_metadata H k v).composition_hash = cp.composition_hash ∧
        (cp.add_metadata H k v).verify_integrity H = true := by
  refine ⟨⟨ps, [], compute_composition_hash H ps⟩, ?_, ?_, ?_, ?_⟩
  · unfold CompositeProof.new
    rw [if_neg (by simp [List.isEmpty_iff, hne])]
  · show compute_composition_hash H ps = _
    unfold compute_composition_hash
    rw [foldl_append_to_bytes, List.append_assoc]
  · simp [CompositeProof.verify_integrity]
  · intro k v
    exact ⟨rfl, by simp [CompositeProof.verify_integrity, CompositeProof.add_metadata]⟩

/-- C8 witness: a one-envelope composite under the identity stand-in for
the hash function. -/
theorem composite_digest_metadata_witness :
    (([⟨1, 1, [0], [1]⟩] : List Proof) ≠ []) ∧
    (∃ cp, CompositeProof.new (fun l => l) [⟨1, 1, [0], [1]⟩] = .ok cp ∧
      cp.composition_hash
        = (fun l : Bytes => l)
            ([67, 79, 77, 80, 79, 83, 73, 84, 69, 95, 80, 82, 79, 79, 70, 58]
            ++ toLE 4 ([⟨1, 1, [0], [1]⟩] : List Proof).length
            ++ (([⟨1, 1, [0], [1]⟩] : List Proof).map Proof.to_bytes).flatten) ∧
      cp.verify_integrity (fun l => l) = true ∧
      ∀ k v, (cp.add_metadata (fun l => l) k v).composition_hash = cp.composition_hash ∧
        (cp.add_metadata (fun l => l) k v).verify_integrity (fun l => l) = true) :=
  ⟨by decide, composite_digest_metadata (fun l => l) [⟨1, 1, [0], [1]⟩] (by decide)⟩

/-- The validation predicate of each operation kind, as the code computes
it. -/
def opValid : BatchOperation → Bool
  | .RangeProof value min max => (validate_range_params value min max).isOk
  | .EqualityProof val1 val2 => val1 == val2
  | .ThresholdProof values threshold => (validate_threshold_params values threshold).isOk
  | .MembershipProof value set => (validate_membership_params value set).isOk
  | .ImprovementProof old new => (validate_improvement_params old new).isOk
  | .ConsistencyProof data => (validate_consistency_params data).isOk

/-- Every operation of every registered batch satisfies its validation
predicate. -/
def stateValid (st : BatchState) : Bool :=
  st.registry.all (fun kv => kv.2.all opValid)

theorem registryGet_all (id : Nat) (reg : List (Nat × ProofBatch)) (b : ProofBatch)
    (h : registryGet id reg = some b)
    (hall : reg.all (fun kv => kv.2.all opValid) = true) : b.all opValid = true := by
  induction reg with
  | nil => simp [registryGet] at h
  | cons kv t ih =>
    obtain ⟨k, v⟩ := kv
    simp only [registryGet] at h
    simp only [List.all_cons, Bool.and_eq_true] at hall
    by_cases hk : k = id
    · rw [if_pos hk] at h
      cases h
      exact hall.1
    · rw [if_neg hk] at h
      exact ih h hall.2

theorem registryInsert_all (id : Nat) (nb : ProofBatch)
    (reg : List (Nat × ProofBatch))
    (hall : reg.all (fun kv => kv.2.all opValid) = true)
    (hnb : nb.all opValid = true) :
    (registryInsert id nb reg).all (fun kv => kv.2.all opValid) = true := by
  induction reg with
  | nil => simp [registryInsert, hnb]
  | cons kv t ih =>
    obtain ⟨k, v⟩ := kv
    simp only [List.all_cons, Bool.and_eq_true] at hall
    simp only [registryInsert]
    by_cases hk : k = id
    · rw [if_pos hk]
      simp [hnb, hall.2]
    · rw [if_neg hk]
      simp only [List.all_cons, Bool.and_eq_true]
      exact ⟨hall.1, ih hall.2⟩

/-- Appending a validated operation under `with_batch_mut` preserves the
registry invariant, and a failure leaves the state untouched. -/
theorem with_batch_mut_inv (st : BatchState) (id : Nat) (op : BatchOperation)
    (hst : stateValid st = true) (hop : opValid op = true) :
    stateValid (with_batch_mut st id (fun b => b ++ [op])).1 = true ∧
    ((with_batch_mut st id (fun b => b ++ [op])).2.isOk = false
      → (with_batch_mut st id (fun b => b ++ [op])).1 = st) := by
  unfold with_batch_mut
  cases hg : registryGet id st.registry with
  | none => exact ⟨hst, fun _ => rfl⟩
  | some batch =>
    refine ⟨?_, ?_⟩
    · dsimp only
      unfold stateValid at hst ⊢
      dsimp only
      apply registryInsert_all _ _ _ hst
      rw [List.all_append]
      simp [registryGet_all id st.registry batch hg hst, hop]
    · intro h
      simp [Except.isOk, Except.toBool] at h

/-- C9: the three batch-add operations validate their arguments before
insertion: starting from a registry whose operations all satisfy their
validation predicates, each add preserves that invariant, and whenever an
add returns an error the registry is unchanged. -/
theorem batch_add_validation_invariant (st : BatchState)
    (hst : stateValid st = true) (id value mn mx v1 v2 t : Nat)
    (vals : List Nat) :
    (stateValid (batch_add_range_proof st id value mn mx).1 = true ∧
      ((batch_add_range_proof st id value mn mx).2.isOk = false →
        (batch_add_range_proof st id value mn mx).1 = st)) ∧
    (stateValid (batch_add_equality_proof st id v1 v2).1 = true ∧
      ((batch_add_equality_proof st id v1 v2).2.isOk = false →
        (batch_add_equality_proof st id v1 v2).1 = st)) ∧
    (stateValid (batch_add_threshold_proof st id vals t).1 = true ∧
      ((batch_add_threshold_proof st id vals t).2.isOk = false →
        (batch_add_threshold_proof st id vals t).1 = st)) := by
  refine ⟨?_, ?_, ?_⟩
  · unfold batch_add_range_proof
    cases hv : validate_range_params value mn mx with
    | error e => exact ⟨hst, fun _ => rfl⟩
    | ok u =>
      exact with_batch_mut_inv st id _ hst (by simp only [opValid, hv]; rfl)
  · unfold batch_add_equality_proof
    by_cases hv : v1 = v2
    · rw [if_neg (by omega)]
      exact with_batch_mut_inv st id _ hst (by simp [opValid, hv])
    · rw [if_pos (by omega)]
      exact ⟨hst, fun _ => rfl⟩
  · unfold batch_add_threshold_proof
    cases hv : validate_threshold_params vals t with
    | error e => exact ⟨hst, fun _ => rfl⟩
    | ok u =>
      exact with_batch_mut_inv st id _ hst (by simp only [opValid, hv]; rfl)

/-- C9 witness: the invariant theorem applied to a single-batch registry
holding one valid operation. -/
theorem batch_add_validation_invariant_witness :
    stateValid ⟨[(0, [BatchOperation.RangeProof 10 0 20])], 1⟩ = true ∧
    ((stateValid (batch_add_range_proof ⟨[(0, [BatchOperation.RangeProof 10 0 20])], 1⟩
        0 7 0 5).1 = true ∧
      ((batch_add_range_proof ⟨[(0, [BatchOperation.RangeProof 10 0 20])], 1⟩
          0 7 0 5).2.isOk = false →
        (batch_add_range_proof ⟨[(0, [BatchOperation.RangeProof 10 0 20])], 1⟩
          0 7 0 5).1 = ⟨[(0, [BatchOperation.RangeProof 10 0 20])], 1⟩)) ∧
    (stateValid (batch_add_equality_proof ⟨[(0, [BatchOperation.RangeProof 10 0 20])], 1⟩
        0 4 4).1 = true ∧
      ((batch_add_equality_proof ⟨[(0, [BatchOperation.RangeProof 10 0 20])], 1⟩
          0 4 4).2.isOk = false →
        (batch_add_equality_proof ⟨[(0, [BatchOperation.RangeProof 10 0 20])], 1⟩
          0 4 4).1 = ⟨[(0, [BatchOperation.RangeProof 10 0 20])], 1⟩)) ∧
    (stateValid (batch_add_threshold_proof ⟨[(0, [BatchOperation.RangeProof 10 0 20])], 1⟩
        0 [1, 2] 3).1 = true ∧
      ((batch_add_threshold_proof ⟨[(0, [BatchOperation.RangeProof 10 0 20])], 1⟩
          0 [1, 2] 3).2.isOk = false →
        (batch_add_threshold_proof ⟨[(0, [BatchOperation.RangeProof 10 0 20])], 1⟩
          0 [1, 2] 3).1 = ⟨[(0, [BatchOperation.RangeProof 10 0 20])], 1⟩))) :=
  ⟨by decide,
    batch_add_validation_invariant ⟨[(0, [BatchOperation.RangeProof 10 0 20])], 1⟩
      (by decide) 0 7 0 5 4 4 3 [1, 2]⟩

/-- C10 witness: a never-created id in the empty registry. -/
theorem clear_batch_always_ok_witness :
    registryGet 5 initialBatchState.registry = none ∧
    ((clear_batch initialBatchState 5).2 = .ok () ∧
    (registryGet 5 initialBatchState.registry = none →
      (process_batch TrivialModel trivRnd initialBatchState 5).2
        = .error ⟨.valueError, "Invalid batch ID"⟩)) :=
  ⟨rfl, clear_batch_always_ok initialBatchState 5 TrivialModel trivRnd⟩

end Libzkp

namespace Libzkp

/-! ## C4: the six-operation batch (spec S7) -/

/-- One operation of each kind, in declared input order. -/
def c4Ops : List BatchOperation :=
  [.RangeProof 10 0 20, .EqualityProof 5 5, .ThresholdProof [1, 2, 3] 5,
   .MembershipProof 3 [1, 2, 3], .ImprovementProof 1 8, .ConsistencyProof [1, 2, 2, 3]]

/-- The registry state holding the six-operation batch under id 0. -/
def c4State : BatchState := ⟨[(0, c4Ops)], 1⟩

/-- The matching type tags, in the same order. -/
def c4Tags : List String :=
  ["range", "equality", "threshold", "membership", "improvement", "consistency"]

/-- The envelopes the batch run returns at the computable model. -/
def c4Envs : List Bytes :=
  (process_batch TrivialModel trivRnd c4State 0).2.toOption.getD []

/-- Ordered per-operation results of the six-operation batch. -/
theorem c4_collect (M : CryptoModel) (rnd : Nat → Nat → M.Scalar)
    (a1 b1 a2 b2 ep a3 b3 mp ip q1 f1 q2 f2 q3 f3 : Bytes)
    (hr1 : M.rpProve "libzkp_range_min" 10 (rnd 0 0) = some (a1, b1))
    (hr2 : M.rpProve "libzkp_range_max" 10 (M.sneg (rnd 0 0)) = some (a2, b2))
    (hmcR : markerClean (rangePayload 0 20 a1 a2 b1 b2))
    (hep : M.grothProveEq 5 5 (M.sha (toLE 8 5)) = some ep)
    (ht : M.rpProve "libzkp_threshold" 1 (rnd 2 0) = some (a3, b3))
    (hmcT : markerClean (thrPayload 5 a3 b3))
    (hmp : M.grothProveMem 3 [1, 2, 3] (M.sha (toLE 8 3)) = some mp)
    (hip : M.starkProveRaw 1 8 = some ip)
    (hq1 : M.rpProve "libzkp_consistency" 1 (M.ssub (rnd 5 1) (rnd 5 0)) = some (q1, f1))
    (hq2 : M.rpProve "libzkp_consistency" 0 (M.ssub (rnd 5 2) (rnd 5 1)) = some (q2, f2))
    (hq3 : M.rpProve "libzkp_consistency" 1 (M.ssub (rnd 5 3) (rnd 5 2)) = some (q3, f3))
    (hmcC : markerClean (consPayload [1, 2, 2, 3]
      (consCms M (rnd 5) [1, 2, 2, 3]) [(q1, f1), (q2, f2), (q3, f3)])) :
    collectResults M rnd 0 c4Ops = .ok
      [(Proof.new 1 (rangePayload 0 20 a1 a2 b1 b2)
          (M.compress (M.commitN 10 (rnd 0 0)))).to_bytes,
       (Proof.new 2 ep (M.sha (toLE 8 5))).to_bytes,
       (Proof.new 3 (thrPayload 5 a3 b3)
          (M.compress (M.commitN 6 (rnd 2 0)))).to_bytes,
       (Proof.new 4 (toLE 4 ([1, 2, 3] : List Nat).length
            ++ (([1, 2, 3] : List Nat).map (toLE 8)).flatten ++ mp)
          (M.sha (toLE 8 3))).to_bytes,
       (Proof.new 5 ip (toLE 8 7 ++ toLE 8 8)).to_bytes,
       (Proof.new 6 (consPayload [1, 2, 2, 3]
            (consCms M (rnd 5) [1, 2, 2, 3]) [(q1, f1), (q2, f2), (q3, f3)])
          (M.compress (M.commitN 1 (rnd 5 0)))).to_bytes] := by
  have ho1 : process_batch_operation M (rnd 0) (.RangeProof 10 0 20)
      = .ok (Proof.new 1 (rangePayload 0 20 a1 a2 b1 b2)
          (M.compress (M.commitN 10 (rnd 0 0)))).to_bytes := by
    unfold process_batch_operation
    dsimp only
    rw [prove_range_ok M (rnd 0 0) 10 0 20 (by omega) (by omega) a1 b1 a2 b2
      hr1 hr2 hmcR]
  have ho2 : process_batch_operation M (rnd 1) (.EqualityProof 5 5)
      = .ok (Proof.new 2 ep (M.sha (toLE 8 5))).to_bytes := by
    unfold process_batch_operation
    dsimp only
    rw [prove_equality_ok M 5 (by norm_num) ep hep]
  have ho3 : process_batch_operation M (rnd 2) (.ThresholdProof [1, 2, 3] 5)
      = .ok (Proof.new 3 (thrPayload 5 a3 b3)
          (M.compress (M.commitN 6 (rnd 2 0)))).to_bytes := by
    unfold process_batch_operation
    dsimp only
    rw [prove_threshold_ok M (rnd 2 0) [1, 2, 3] 5 6 a3 b3 rfl trySum64_123
      (by omega) ht hmcT]
  have ho4 : process_batch_operation M (rnd 3) (.MembershipProof 3 [1, 2, 3])
      = .ok (Proof.new 4 (toLE 4 ([1, 2, 3] : List Nat).length
            ++ (([1, 2, 3] : List Nat).map (toLE 8)).flatten ++ mp)
          (M.sha (toLE 8 3))).to_bytes := by
    unfold process_batch_operation
    dsimp only
    rw [prove_membership_ok M 3 [1, 2, 3] mp (by decide) (by decide) hmp]
  have ho5 : process_batch_operation M (rnd 4) (.ImprovementProof 1 8)
      = .ok (Proof.new 5 ip (toLE 8 7 ++ toLE 8 8)).to_bytes := by
    unfold process_batch_operation
    dsimp only
    rw [prove_improvement_1_8 M ip hip]
  have ho6 : process_batch_operation M (rnd 5) (.ConsistencyProof [1, 2, 2, 3])
      = .ok (Proof.new 6 (consPayload [1, 2, 2, 3]
            (consCms M (rnd 5) [1, 2, 2, 3]) [(q1, f1), (q2, f2), (q3, f3)])
          (M.compress (M.commitN 1 (rnd 5 0)))).to_bytes := by
    unfold process_batch_operation
    dsimp only
    rw [prove_consistency_1223 M (rnd 5) q1 f1 q2 f2 q3 f3 hq1 hq2 hq3 hmcC]
  simp only [c4Ops, collectResults, ho1, ho2, ho3, ho4, ho5, ho6]

set_option maxRecDepth 100000 in
/-- C4: on the code as written, building the batch with one operation of
each kind and processing it yields six envelopes in declared input order,
and processing (removing) the same batch id a second time errors; but the
parallel verification of the six envelopes with their type tags does NOT
return all true: the membership and consistency envelopes verify false
(shown at the computable model), against the claim. -/
theorem batch_s7_behavior (M : CryptoModel) (rnd : Nat → Nat → M.Scalar)
    (a1 b1 a2 b2 ep a3 b3 mp ip q1 f1 q2 f2 q3 f3 : Bytes)
    (hr1 : M.rpProve "libzkp_range_min" 10 (rnd 0 0) = some (a1, b1))
    (hr2 : M.rpProve "libzkp_range_max" 10 (M.sneg (rnd 0 0)) = some (a2, b2))
    (hmcR : markerClean (rangePayload 0 20 a1 a2 b1 b2))
    (hep : M.grothProveEq 5 5 (M.sha (toLE 8 5)) = some ep)
    (ht : M.rpProve "libzkp_threshold" 1 (rnd 2 0) = some (a3, b3))
    (hmcT : markerClean (thrPayload 5 a3 b3))
    (hmp : M.grothProveMem 3 [1, 2, 3] (M.sha (toLE 8 3)) = some mp)
    (hip : M.starkProveRaw 1 8 = some ip)
    (hq1 : M.rpProve "libzkp_consistency" 1 (M.ssub (rnd 5 1) (rnd 5 0)) = some (q1, f1))
    (hq2 : M.rpProve "libzkp_consistency" 0 (M.ssub (rnd 5 2) (rnd 5 1)) = some (q2, f2))
    (hq3 : M.rpProve "libzkp_consistency" 1 (M.ssub (rnd 5 3) (rnd 5 2)) = some (q3, f3))
    (hmcC : markerClean (consPayload [1, 2, 2, 3]
      (consCms M (rnd 5) [1, 2, 2, 3]) [(q1, f1), (q2, f2), (q3, f3)])) :
    ((batch_add_consistency_proof (batch_add_improvement_proof
        (batch_add_membership_proof (batch_add_threshold_proof
          (batch_add_equality_proof (batch_add_range_proof
            (create_proof_batch initialBatchState).1 0 10 0 20).1 0 5 5).1
          0 [1, 2, 3] 5).1 0 3 [1, 2, 3]).1 0 1 8).1 0 [1, 2, 2, 3]).1 = c4State
      ∧ process_batch M rnd c4State 0 = (⟨[], 1⟩, .ok
          [(Proof.new 1 (rangePayload 0 20 a1 a2 b1 b2)
              (M.compress (M.commitN 10 (rnd 0 0)))).to_bytes,
           (Proof.new 2 ep (M.sha (toLE 8 5))).to_bytes,
           (Proof.new 3 (thrPayload 5 a3 b3)
              (M.compress (M.commitN 6 (rnd 2 0)))).to_bytes,
           (Proof.new 4 (toLE 4 ([1, 2, 3] : List Nat).length
                ++ (([1, 2, 3] : List Nat).map (toLE 8)).flatten ++ mp)
              (M.sha (toLE 8 3))).to_bytes,
           (Proof.new 5 ip (toLE 8 7 ++ toLE 8 8)).to_bytes,
           (Proof.new 6 (consPayload [1, 2, 2, 3]
                (consCms M (rnd 5) [1, 2, 2, 3]) [(q1, f1), (q2, f2), (q3, f3)])
              (M.compress (M.commitN 1 (rnd 5 0)))).to_bytes])
      ∧ (process_batch M rnd ⟨[], 1⟩ 0).2
          = .error ⟨.valueError, "Invalid batch ID"⟩)
    ∧ verify_proofs_parallel TrivialModel (c4Envs.zip c4Tags)
        = [true, true, true, false, true, false] := by
  refine ⟨⟨by decide, ?_, rfl⟩, by decide⟩
  unfold process_batch
  rw [show registryGet 0 c4State.registry = some c4Ops from rfl]
  dsimp only
  rw [c4_collect M rnd a1 b1 a2 b2 ep a3 b3 mp ip q1 f1 q2 f2 q3 f3
    hr1 hr2 hmcR hep ht hmcT hmp hip hq1 hq2 hq3 hmcC]
  rfl

/-- The compressed commitment of value 10 under blinding 0 at the
computable model, doubling as its own range sub-proof bytes. -/
def c4rp10 : Bytes := trivCompress (10, 0)

/-- Commitment/sub-proof bytes for value 1, blinding 0. -/
def c4rp1 : Bytes := trivCompress (1, 0)

/-- Commitment/sub-proof bytes for value 0, blinding 0. -/
def c4rp0 : Bytes := trivCompress (0, 0)

/-- The trivial Groth16 equality proof bytes for value 5. -/
def c4eqPf : Bytes := toLE 8 5 ++ (TrivialModel.sha (toLE 8 5)).take 32

/-- The trivial Groth16 membership proof bytes for value 3. -/
def c4memPf : Bytes := 0 :: (TrivialModel.sha (toLE 8 3)).take 32

/-- The trivial STARK proof bytes for the improvement 1 to 8. -/
def c4impPf : Bytes := toLE 8 1 ++ toLE 8 8 ++ [1]

set_option maxRecDepth 100000 in
/-- C4 witness: the batch scenario at the computable model with concrete
proof bytes. -/
theorem batch_s7_behavior_witness :
    TrivialModel.rpProve "libzkp_range_min" 10 (trivRnd 0 0) = some (c4rp10, c4rp10)
    ∧ process_batch TrivialModel trivRnd c4State 0 = (⟨[], 1⟩, .ok
        [(Proof.new 1 (rangePayload 0 20 c4rp10 c4rp10 c4rp10 c4rp10)
            (TrivialModel.compress (TrivialModel.commitN 10 (trivRnd 0 0)))).to_bytes,
         (Proof.new 2 c4eqPf (TrivialModel.sha (toLE 8 5))).to_bytes,
         (Proof.new 3 (thrPayload 5 c4rp1 c4rp1)
            (TrivialModel.compress (TrivialModel.commitN 6 (trivRnd 2 0)))).to_bytes,
         (Proof.new 4 (toLE 4 ([1, 2, 3] : List Nat).length
              ++ (([1, 2, 3] : List Nat).map (toLE 8)).flatten ++ c4memPf)
            (TrivialModel.sha (toLE 8 3))).to_bytes,
         (Proof.new 5 c4impPf (toLE 8 7 ++ toLE 8 8)).to_bytes,
         (Proof.new 6 (consPayload [1, 2, 2, 3]
              (consCms TrivialModel (trivRnd 5) [1, 2, 2, 3])
              [(c4rp1, c4rp1), (c4rp0, c4rp0), (c4rp1, c4rp1)])
            (TrivialModel.compress (TrivialModel.commitN 1 (trivRnd 5 0)))).to_bytes]) :=
  ⟨rfl, (batch_s7_behavior TrivialModel trivRnd c4rp10 c4rp10 c4rp10 c4rp10
      c4eqPf c4rp1 c4rp1 c4memPf c4impPf c4rp1 c4rp1 c4rp0 c4rp0 c4rp1 c4rp1
      rfl rfl (by decide) rfl rfl (by decide) rfl rfl rfl rfl rfl
      (by decide)).1.2.1⟩

end Libzkp
